import Mathlib

/-!
Verification of the traffic-monitoring analytics pipeline.

This file is a shallow embedding, in Lean 4, of the Python components
`models/components/vehicle_tracker.py`, `models/components/anomaly_detector.py`,
`models/components/traffic_monitor.py` and (the session-start logic of)
`models/video_analysis_orchestrator.py`, together with theorems about them.

Modelling conventions:
- Python floats (coordinates, timestamps) are modelled as exact rationals `ℚ`.
- Python dicts are modelled as insertion-ordered association lists
  (`List (κ × α)`); `alookup`/`aset` give lookup and update-or-append with
  Python's semantics (an update of an existing key keeps its position, a new
  key is appended at the end).
- `np.sqrt` appears in the source only (a) in distance comparisons inside
  `update_tracks`, where we compare squared distances instead (justified by
  the lemma `sqrt_dist_lt_50_iff`: `sqrt` is strictly monotone on
  nonnegatives, so `sqrt d < 50` iff `d < 2500`), and (b) in the speed
  computation of `get_movement_info`, where we keep the genuine real-valued
  square root (`Real.sqrt`), making that one definition noncomputable.
- `datetime.now()` (a wall-clock field stored on anomaly records, never read
  by the analytics) and logging calls are not modelled.
-/

/-! ## Association lists with Python-dict semantics -/

/-- Lookup in an insertion-ordered association list (Python `d[k]` / `k in d`). -/
def alookup {κ α : Type} [DecidableEq κ] : List (κ × α) → κ → Option α
  | [], _ => none
  | (k, v) :: rest, key => if k = key then some v else alookup rest key

/-- `d[k] = v` on a Python dict: replace in place if the key exists (keeping
its position), otherwise append the new binding at the end. -/
def aset {κ α : Type} [DecidableEq κ] : List (κ × α) → κ → α → List (κ × α)
  | [], k, v => [(k, v)]
  | (k', v') :: rest, k, v =>
      if k' = k then (k, v) :: rest else (k', v') :: aset rest k v

/-- The keys of an association list, in order. -/
def akeys {κ α : Type} (l : List (κ × α)) : List κ := l.map Prod.fst

/-! ## Data model (`models/entities/detection_result.py`) -/

/-- A point in the image plane: Python `(x, y)` tuples of floats. -/
abbrev Pos : Type := ℚ × ℚ

/-- `Detection` from `models/entities/detection_result.py`.  `center` is
`None` when the bbox is absent/empty (`__post_init__` leaves it unset). -/
structure Detection where
  id : String
  class_name : String
  confidence : ℚ
  bbox : ℤ × ℤ × ℤ × ℤ
  center : Option Pos
deriving DecidableEq, Repr

/-! ## VehicleTracker state (`models/components/vehicle_tracker.py`) -/

/-- The mutable state of a `VehicleTracker` instance.  History entries are
`(x, y, timestamp)` triples; each id's history is kept in chronological
order (the Python `deque`, oldest first). -/
structure TrackerState where
  max_history : Nat
  tracking_history : List (String × List (ℚ × ℚ × ℚ))
  last_positions : List (String × Pos)
  next_id : Nat
  counted_ids : List String
deriving DecidableEq, Repr

/-- `VehicleTracker.__init__(max_history)`. -/
def tracker_init (maxHistory : Nat) : TrackerState :=
  { max_history := maxHistory
    tracking_history := []
    last_positions := []
    next_id := 1
    counted_ids := [] }

/-- `VehicleTracker.reset()`: clears all tracking data, restarts ids at 1. -/
def tracker_reset (s : TrackerState) : TrackerState :=
  { s with tracking_history := [], last_positions := [], next_id := 1, counted_ids := [] }

/-- Squared Euclidean distance.  The source computes
`np.sqrt((cx-px)**2 + (cy-py)**2)` and only ever compares it (to `50` and to
the running minimum); comparing squares is equivalent. -/
def distSq (a b : Pos) : ℚ := (a.1 - b.1) ^ 2 + (a.2 - b.2) ^ 2

/-- One iteration of the `for obj_id, last_pos in self.last_positions.items()`
loop in `update_tracks`: keep the closest track strictly within 50px
(`distance < 50 and distance < min_distance`, squared form). -/
def considerTrack (c : Pos) (acc : Option (String × ℚ)) (entry : String × Pos) :
    Option (String × ℚ) :=
  match acc with
  | none => if distSq c entry.2 < 2500 then some (entry.1, distSq c entry.2) else none
  | some (bid, m) =>
      if distSq c entry.2 < 2500 ∧ distSq c entry.2 < m then some (entry.1, distSq c entry.2)
      else some (bid, m)

/-- The whole nearest-track search of `update_tracks` (`best_id`,
`min_distance` after the loop; `none` when no track is strictly within
50px). -/
def findBest (lp : List (String × Pos)) (c : Pos) : Option (String × ℚ) :=
  lp.foldl (considerTrack c) none

/-- `deque(maxlen = maxLen).append`: append on the right, evicting from the
left when the capacity is exceeded. -/
def dequeAppend {α : Type} (maxLen : Nat) (l : List α) (x : α) : List α :=
  if maxLen < (l ++ [x]).length then (l ++ [x]).drop ((l ++ [x]).length - maxLen)
  else l ++ [x]

/-- `VehicleTracker._update_history`: create the (bounded) deque on first
use, then append `(x, y, timestamp)`. -/
def update_history (s : TrackerState) (objId : String) (pos : Pos) (t : ℚ) :
    TrackerState :=
  { s with
    tracking_history :=
      aset s.tracking_history objId
        (dequeAppend s.max_history ((alookup s.tracking_history objId).getD []) (pos.1, pos.2, t)) }

/-- Timestamp of the most recent history sample (`history[-1][2]`). -/
def lastTs (h : List (ℚ × ℚ × ℚ)) : ℚ :=
  match h.getLast? with
  | some e => e.2.2
  | none => 0

/-- The staleness test of `_cleanup_old_tracks`:
`history and (current_timestamp - history[-1][2]) > max_age`. -/
def isStale (t maxAge : ℚ) (h : List (ℚ × ℚ × ℚ)) : Bool :=
  !h.isEmpty && decide (maxAge < t - lastTs h)

/-- `VehicleTracker._cleanup_old_tracks`: drop every track whose last sample
is older than `maxAge`, both from the history dict and (where present) from
`last_positions`. -/
def cleanup_old_tracks (s : TrackerState) (t maxAge : ℚ) : TrackerState :=
  { s with
    tracking_history := s.tracking_history.filter (fun p => !isStale t maxAge p.2)
    last_positions := s.last_positions.filter (fun p =>
      match alookup s.tracking_history p.1 with
      | some h => !isStale t maxAge h
      | none => true) }

/-- Tags produced by the first pass of `update_tracks` over the input
detections: skipped (no computable center), matched to an existing track, or
unmatched (queued for a fresh id).  Matched/unmatched tags carry the center. -/
inductive MatchTag where
  | skipped (d : Detection)
  | matched (d : Detection) (objId : String) (c : Pos)
  | unmatched (d : Detection) (c : Pos)
deriving DecidableEq, Repr

/-- First pass of `update_tracks` (the `for detection in detections` loop):
match against `self.last_positions` as it was at call entry, record the
assignment in `current_positions`, and append to the matched track's history.
The `bid = ""` guard mirrors the Python truthiness test `if best_id:` (an
empty-string key would be treated as no match). -/
def matchStep (lp : List (String × Pos)) (t : ℚ)
    (acc : List MatchTag × List (String × Pos) × TrackerState) (d : Detection) :
    List MatchTag × List (String × Pos) × TrackerState :=
  match d.center with
  | none => (acc.1 ++ [MatchTag.skipped d], acc.2.1, acc.2.2)
  | some c =>
    match findBest lp c with
    | some (bid, _) =>
        if bid = "" then (acc.1 ++ [MatchTag.unmatched d c], acc.2.1, acc.2.2)
        else (acc.1 ++ [MatchTag.matched d bid c],
              aset acc.2.1 bid c,
              update_history acc.2.2 bid c t)
    | none => (acc.1 ++ [MatchTag.unmatched d c], acc.2.1, acc.2.2)

/-- `obj_<n>`, the sequential fresh-id scheme. -/
def objName (n : Nat) : String := "obj_" ++ toString n

/-- Second pass of `update_tracks` (the `for detection in unmatched_detections`
loop interleaved with rebuilding the output list in input order): fresh
sequential ids for unmatched detections, recorded in `current_positions` and
the history. -/
def newIdStep (t : ℚ)
    (acc : List Detection × List (String × Pos) × TrackerState) (tag : MatchTag) :
    List Detection × List (String × Pos) × TrackerState :=
  match tag with
  | MatchTag.skipped d => (acc.1 ++ [d], acc.2.1, acc.2.2)
  | MatchTag.matched d bid _ => (acc.1 ++ [{ d with id := bid }], acc.2.1, acc.2.2)
  | MatchTag.unmatched d c =>
      (acc.1 ++ [{ d with id := objName acc.2.2.next_id }],
       aset acc.2.1 (objName acc.2.2.next_id) c,
       update_history { acc.2.2 with next_id := acc.2.2.next_id + 1 }
         (objName acc.2.2.next_id) c t)

/-- `VehicleTracker.update_tracks(detections, timestamp)`: match, assign
fresh ids, replace `last_positions` wholesale with this call's
`current_positions`, and finally purge stale tracks (`max_age = 2.0`). -/
def update_tracks (s : TrackerState) (dets : List Detection) (t : ℚ) :
    List Detection × TrackerState :=
  let p1 := dets.foldl (matchStep s.last_positions t) ([], [], s)
  let p2 := p1.1.foldl (newIdStep t) ([], p1.2.1, p1.2.2)
  (p2.1, cleanup_old_tracks { p2.2.2 with last_positions := p2.2.1 } t 2)

/-- The counter-clockwise orientation predicate `ccw` used by
`_line_intersection`. -/
def ccw (A B C : Pos) : Bool :=
  decide ((C.2 - A.2) * (B.1 - A.1) > (B.2 - A.2) * (C.1 - A.1))

/-- `VehicleTracker._line_intersection`: proper segment intersection via the
standard orientation test. -/
def line_intersection (p1 p2 p3 p4 : Pos) : Bool :=
  (ccw p1 p3 p4 != ccw p2 p3 p4) && (ccw p1 p2 p3 != ccw p1 p2 p4)

/-- The last two history samples, oldest first (`history[-2]`, `history[-1]`);
`none` exactly when fewer than two samples exist. -/
def last2 {α : Type} (l : List α) : Option (α × α) :=
  match l.reverse with
  | c :: p :: _ => some (p, c)
  | _ => none

/-- `VehicleTracker.check_line_crossing(obj_id, line_start, line_end,
direction)`: geometric crossing of the segment between the last two tracked
positions, gated by the configured direction, then by the at-most-once
`counted_ids` set.  Returns the Python return value together with the
(possibly updated) tracker state. -/
def check_line_crossing (s : TrackerState) (objId : String)
    (lineStart lineEnd : Pos) (direction : String) : Bool × TrackerState :=
  match alookup s.tracking_history objId with
  | none => (false, s)
  | some history =>
    if history.length < 2 then (false, s)
    else
      match last2 history with
      | none => (false, s)
      | some (pv, cv) =>
        let prevPos : Pos := (pv.1, pv.2.1)
        let currPos : Pos := (cv.1, cv.2.1)
        if line_intersection prevPos currPos lineStart lineEnd = false then (false, s)
        else if direction = "down" ∧ currPos.2 ≤ prevPos.2 then (false, s)
        else if direction = "up" ∧ currPos.2 ≥ prevPos.2 then (false, s)
        else if direction = "left" ∧ currPos.1 ≥ prevPos.1 then (false, s)
        else if direction = "right" ∧ currPos.1 ≤ prevPos.1 then (false, s)
        else if objId ∈ s.counted_ids then (false, s)
        else (true, { s with counted_ids := objId :: s.counted_ids })

/-- Result record of `get_movement_info`. -/
structure MovementInfo where
  speed : ℝ
  distance : ℝ
  stopped : Bool

/-- Timestamp of the first sample of a (reversed) window
(`positions_in_window[0][2]`). -/
def headTs (h : List (ℚ × ℚ × ℚ)) : ℚ :=
  match h.head? with
  | some e => e.2.2
  | none => 0

/-- Euclidean distance between two history samples (positions only), as used
in the path-length sum of `get_movement_info`. -/
noncomputable def segdist (a b : ℚ × ℚ × ℚ) : ℝ :=
  Real.sqrt (((a.1 - b.1) ^ 2 + (a.2.1 - b.2.1) ^ 2 : ℚ))

/-- `VehicleTracker.get_movement_info(obj_id, time_window)`: path length and
speed over the samples within `time_window` of the newest sample;
`stopped = speed < 5.0`.  Unknown ids and histories with fewer than two
usable samples report `speed = 0, distance = 0, stopped = True`.
`window` is the reversed history prefix selected by the `for ... break` loop
(newest first, like Python's `positions_in_window`). -/
noncomputable def get_movement_info (s : TrackerState) (objId : String)
    (timeWindow : ℚ) : MovementInfo :=
  match alookup s.tracking_history objId with
  | none => { speed := 0, distance := 0, stopped := true }
  | some history =>
    if history.length < 2 then { speed := 0, distance := 0, stopped := true }
    else
      let currentTime := lastTs history
      let window := history.reverse.takeWhile (fun p => decide (currentTime - p.2.2 ≤ timeWindow))
      if window.length < 2 then { speed := 0, distance := 0, stopped := true }
      else
        let total : ℝ := ((window.zip window.tail).map (fun q => segdist q.1 q.2)).sum
        let timeElapsed : ℚ := headTs window - lastTs window
        let speed : ℝ := if 0 < timeElapsed then total / (timeElapsed : ℚ) else 0
        { speed := speed, distance := total, stopped := decide (speed < 5) }

/-! ## AnomalyDetector (`models/components/anomaly_detector.py`) -/

/-- One value of the `stopped_vehicles` dict:
`{"start_time": t, "position": (x,y), "vehicle_type": cls}`. -/
structure StopEntry where
  start_time : ℚ
  position : Option Pos
  vehicle_type : String
deriving DecidableEq, Repr

/-- The mutable state of an `AnomalyDetector` instance. -/
structure AnomalyState where
  stop_time_threshold : ℚ
  stopped_vehicles : List (String × StopEntry)
deriving DecidableEq, Repr

/-- `AnomalyDetector.__init__(stop_time_threshold)` (default 20.0). -/
def anomaly_init (threshold : ℚ) : AnomalyState :=
  { stop_time_threshold := threshold, stopped_vehicles := [] }

/-- `AnomalyDetector.reset()`. -/
def anomaly_reset (a : AnomalyState) : AnomalyState :=
  { a with stopped_vehicles := [] }

/-- `anomaly_classes["pedestrian"]`. -/
def pedestrian_classes : List String := ["person"]

/-- `anomaly_classes["animal"]`. -/
def animal_classes : List String := ["dog", "cat", "bird", "animal"]

/-- `anomaly_classes["obstacle"]`. -/
def obstacle_classes : List String := ["obstacle", "debris", "rock", "tree", "garbage"]

/-- `anomaly_classes["stopped_vehicle"]`. -/
def stopped_vehicle_classes : List String := ["car", "motorbike", "truck", "bus"]

/-- Python `int()` on a rational value: truncation toward zero. -/
def pyInt (q : ℚ) : ℤ := if 0 ≤ q then ⌊q⌋ else ⌈q⌉

/-- `AnomalyDetector._format_position`. -/
def format_position (p : Option Pos) : String :=
  match p with
  | none => "unknown"
  | some c => "(" ++ toString (pyInt c.1) ++ ", " ++ toString (pyInt c.2) ++ ")"

/-- An anomaly record as built by `AnomalyDetector._create_anomaly`; the
`detected_at = datetime.now()` wall-clock field is not modelled.  The
`stop_duration`/`vehicle_type` fields hold the optional `additional_info`
entries. -/
structure Anomaly where
  anomaly_type : String
  message : String
  timestamp : ℚ
  object_id : String
  object_class : String
  position : Option Pos
  bbox : ℤ × ℤ × ℤ × ℤ
  severity : String
  stop_duration : Option ℚ
  vehicle_type : Option String
deriving DecidableEq, Repr

/-- `AnomalyDetector._create_anomaly`. -/
def create_anomaly (anomalyType message : String) (d : Detection) (t : ℚ)
    (severity : String) (stopDuration : Option ℚ) (vehicleType : Option String) :
    Anomaly :=
  { anomaly_type := anomalyType
    message := message
    timestamp := t
    object_id := d.id
    object_class := d.class_name
    position := d.center
    bbox := d.bbox
    severity := severity
    stop_duration := stopDuration
    vehicle_type := vehicleType }

/-- `AnomalyDetector._check_stopped_vehicle`: start dwell tracking on the
first `stopped` report, alert (severity `high`) once the dwell time strictly
exceeds the threshold, drop the entry when the tracker reports movement. -/
noncomputable def check_stopped_vehicle (a : AnomalyState) (tracker : TrackerState)
    (d : Detection) (t : ℚ) : Option Anomaly × AnomalyState :=
  if (get_movement_info tracker d.id 1).stopped then
    match alookup a.stopped_vehicles d.id with
    | none =>
        (none, { a with stopped_vehicles :=
                  a.stopped_vehicles ++ [(d.id, ⟨t, d.center, d.class_name⟩)] })
    | some entry =>
        if a.stop_time_threshold < t - entry.start_time then
          (some (create_anomaly "stopped_vehicle"
                  ("Xe " ++ d.class_name ++ " dừng bất thường ("
                    ++ toString (pyInt (t - entry.start_time)) ++ "s)")
                  d t "high" (some (t - entry.start_time)) (some d.class_name)),
           a)
        else (none, a)
  else
    (none, { a with stopped_vehicles :=
              a.stopped_vehicles.filter (fun p => decide (p.1 ≠ d.id)) })

/-- One iteration of the `for detection in detections` dispatch loop of
`detect_anomalies`. -/
noncomputable def anomaly_step (tracker : TrackerState) (t : ℚ)
    (acc : List Anomaly × AnomalyState) (d : Detection) :
    List Anomaly × AnomalyState :=
  if d.class_name ∈ pedestrian_classes then
    (acc.1 ++ [create_anomaly "pedestrian"
        ("Phát hiện người đi bộ tại " ++ format_position d.center) d t "medium" none none],
     acc.2)
  else if d.class_name ∈ animal_classes then
    (acc.1 ++ [create_anomaly "animal"
        ("Phát hiện động vật trên đường: " ++ d.class_name) d t "medium" none none],
     acc.2)
  else if d.class_name ∈ obstacle_classes then
    (acc.1 ++ [create_anomaly "obstacle"
        ("Phát hiện vật cản: " ++ d.class_name) d t "medium" none none],
     acc.2)
  else if d.class_name ∈ stopped_vehicle_classes then
    match check_stopped_vehicle acc.2 tracker d t with
    | (some an, a2) => (acc.1 ++ [an], a2)
    | (none, a2) => (acc.1, a2)
  else acc

/-- `AnomalyDetector.detect_anomalies(detections, tracker, timestamp)`. -/
noncomputable def detect_anomalies (a : AnomalyState) (tracker : TrackerState)
    (dets : List Detection) (t : ℚ) : List Anomaly × AnomalyState :=
  dets.foldl (anomaly_step tracker t) ([], a)

/-! ## TrafficMonitor (`models/components/traffic_monitor.py`) -/

/-- A per-type count table with the fixed key set
`{"car", "motorbike", "truck", "bus"}` (used both for the per-frame counts
and for each hourly bucket). -/
structure HourCounts where
  car : Nat
  motorbike : Nat
  truck : Nat
  bus : Nat
deriving DecidableEq, Repr

/-- `{"car": 0, "motorbike": 0, "truck": 0, "bus": 0}`. -/
def zeroHour : HourCounts := ⟨0, 0, 0, 0⟩

/-- `frame_counts[detection.class_name] += 1`. -/
def incCount (fc : HourCounts) (cls : String) : HourCounts :=
  if cls = "car" then { fc with car := fc.car + 1 }
  else if cls = "motorbike" then { fc with motorbike := fc.motorbike + 1 }
  else if cls = "truck" then { fc with truck := fc.truck + 1 }
  else if cls = "bus" then { fc with bus := fc.bus + 1 }
  else fc

/-- `TrafficData` (`models/entities/traffic_data.py`): totals, per-type
counts, and the hour-indexed buckets. -/
structure TrafficData where
  video_id : ℤ
  total_vehicles : Nat
  car_count : Nat
  motorbike_count : Nat
  truck_count : Nat
  bus_count : Nat
  hourly_counts : List (ℤ × HourCounts)
deriving DecidableEq, Repr

/-- `TrafficData(video_id=vid)`. -/
def traffic_data_init (vid : ℤ) : TrafficData :=
  { video_id := vid, total_vehicles := 0, car_count := 0, motorbike_count := 0
    truck_count := 0, bus_count := 0, hourly_counts := [] }

/-- `TrafficData.add_vehicle(vehicle_type)`: the if/elif chain for the
per-type counter, then the membership-gated total increment. -/
def add_vehicle (td : TrafficData) (vt : String) : TrafficData :=
  let td1 :=
    if vt = "car" then { td with car_count := td.car_count + 1 }
    else if vt = "motorbike" then { td with motorbike_count := td.motorbike_count + 1 }
    else if vt = "truck" then { td with truck_count := td.truck_count + 1 }
    else if vt = "bus" then { td with bus_count := td.bus_count + 1 }
    else td
  if vt ∈ stopped_vehicle_classes then { td1 with total_vehicles := td1.total_vehicles + 1 }
  else td1

/-- The mutable state of a `TrafficMonitor` instance.  `current_hour` is
written by `__init__`/`reset` but never read by any method. -/
structure MonitorState where
  virtual_line : Pos × Pos × String
  traffic_data : TrafficData
  current_hour : ℤ
deriving DecidableEq, Repr

/-- `TrafficMonitor.__init__` after `_parse_virtual_line`. -/
def monitor_init (p1 p2 : Pos) (direction : String) : MonitorState :=
  { virtual_line := (p1, p2, direction), traffic_data := traffic_data_init 0
    current_hour := -1 }

/-- `TrafficMonitor.reset()`. -/
def monitor_reset (m : MonitorState) : MonitorState :=
  { m with traffic_data := traffic_data_init 0, current_hour := -1 }

/-- `int(timestamp // 3600)`: float floor-division, hence the floor. -/
def pyHour (t : ℚ) : ℤ := ⌊t / 3600⌋

/-- Per-key `bucket[vt] = max(bucket[vt], frame_counts[vt])` over the fixed
key set, as one table operation. -/
def hourMax (cur fc : HourCounts) : HourCounts :=
  ⟨max cur.car fc.car, max cur.motorbike fc.motorbike,
   max cur.truck fc.truck, max cur.bus fc.bus⟩

/-- `TrafficMonitor._update_hourly_stats(timestamp, frame_counts)`: ensure
the hour bucket exists (initialised to zeros), then take the componentwise
max with the current frame's counts. -/
def update_hourly_stats (td : TrafficData) (t : ℚ) (fc : HourCounts) : TrafficData :=
  let h := pyHour t
  let hc := if (alookup td.hourly_counts h).isSome then td.hourly_counts
            else td.hourly_counts ++ [(h, zeroHour)]
  { td with hourly_counts := aset hc h (hourMax ((alookup hc h).getD zeroHour) fc) }

/-- One iteration of the `for detection in detections` loop of
`process_frame_detections`: count visible vehicles and, gated on
`check_line_crossing`, add to the cumulative aggregate. -/
def frame_step (vline : Pos × Pos × String)
    (acc : HourCounts × TrafficData × TrackerState) (d : Detection) :
    HourCounts × TrafficData × TrackerState :=
  if d.class_name ∈ stopped_vehicle_classes then
    let fc := incCount acc.1 d.class_name
    let r := check_line_crossing acc.2.2 d.id vline.1 vline.2.1 vline.2.2
    if r.1 then (fc, add_vehicle acc.2.1 d.class_name, r.2)
    else (fc, acc.2.1, r.2)
  else acc

/-- `TrafficMonitor.process_frame_detections(detections, tracker, timestamp)`:
the per-detection loop followed by `_update_hourly_stats`.  Returns the new
monitor state together with the mutated tracker. -/
def process_frame_detections (m : MonitorState) (tracker : TrackerState)
    (dets : List Detection) (t : ℚ) : MonitorState × TrackerState :=
  let r := dets.foldl (frame_step m.virtual_line) (zeroHour, m.traffic_data, tracker)
  ({ m with traffic_data := update_hourly_stats r.2.1 t r.1 }, r.2.2)

/-! ## Orchestrator session start (`models/video_analysis_orchestrator.py`) -/

/-- The orchestrator state relevant to session lifecycle (flags, current
video id, and the three analytic components it owns and resets). -/
structure OrchState where
  is_analyzing : Bool
  is_paused : Bool
  should_stop : Bool
  current_video_id : Option ℤ
  tracker : TrackerState
  monitor : MonitorState
  anomaly : AnomalyState
deriving DecidableEq, Repr

/-- `VideoAnalysisOrchestrator.reset()` (state fields; queues/logging are
I/O and not modelled). -/
def orchestrator_reset (s : OrchState) : OrchState :=
  { s with is_analyzing := false, is_paused := false, should_stop := false
           current_video_id := none
           tracker := tracker_reset s.tracker
           monitor := monitor_reset s.monitor
           anomaly := anomaly_reset s.anomaly }

/-- Outcomes of the two fallible external steps of
`start_full_video_analysis`: whether `cv2.VideoCapture(path).isOpened()`
succeeds, and the id of the video record allocated by
`video_repo.create(...)` (`none` when creation fails or the returned record
has no id, i.e. the `if video and hasattr(video, 'id')` guard fails). -/
structure StartEnv where
  open_ok : Bool
  created_video_id : Option ℤ
deriving DecidableEq, Repr

/-- `VideoAnalysisOrchestrator.start_full_video_analysis(video_path)`:
returns `(return value, new state, whether a worker thread was spawned)`.
An already-running session is rejected up front; otherwise the state is
reset, the source opened, the video record allocated, and on success the
session transitions to analyzing and the worker is spawned. -/
def start_full_video_analysis (s : OrchState) (env : StartEnv) :
    ℤ × OrchState × Bool :=
  if s.is_analyzing then (-1, s, false)
  else
    let s1 := orchestrator_reset s
    if env.open_ok = false then (-1, s1, false)
    else
      match env.created_video_id with
      | none => (-1, s1, false)
      | some vid =>
          (vid,
           { s1 with current_video_id := some vid, is_analyzing := true
                     is_paused := false, should_stop := false },
           true)

/-! ## Derived descriptions used in the theorems

`update_tracks` is a two-pass loop.  For reasoning we give closed-form
descriptions of both passes over the per-detection tag list
(`tagsOf lp dets`), and prove (below) that `update_tracks` equals their
composition. -/

/-- The tag a single detection receives in the first pass of
`update_tracks`, determined only by the entry-time `last_positions`. -/
def tagOf (lp : List (String × Pos)) (d : Detection) : MatchTag :=
  match d.center with
  | none => MatchTag.skipped d
  | some c =>
    match findBest lp c with
    | some (bid, _) =>
        if bid = "" then MatchTag.unmatched d c else MatchTag.matched d bid c
    | none => MatchTag.unmatched d c

/-- The tag list of one `update_tracks` call. -/
def tagsOf (lp : List (String × Pos)) (dets : List Detection) : List MatchTag :=
  dets.map (tagOf lp)

/-- Apply a list of dict writes (`d[k] = v`) in order. -/
def asets {κ α : Type} [DecidableEq κ] (l : List (κ × α)) (ops : List (κ × α)) :
    List (κ × α) :=
  ops.foldl (fun acc op => aset acc op.1 op.2) l

/-- The `current_positions` writes performed by the first pass (matched
detections), in order. -/
def opsM : List MatchTag → List (String × Pos)
  | [] => []
  | MatchTag.matched _ b c :: r => (b, c) :: opsM r
  | _ :: r => opsM r

/-- The `current_positions` writes performed by the second pass (fresh ids
for unmatched detections), in order, numbering from `n`. -/
def opsF : Nat → List MatchTag → List (String × Pos)
  | _, [] => []
  | n, MatchTag.unmatched _ c :: r => (objName n, c) :: opsF (n + 1) r
  | n, _ :: r => opsF n r

/-- The history updates performed by the first pass. -/
def matchedHist (t : ℚ) (s : TrackerState) : List MatchTag → TrackerState
  | [] => s
  | MatchTag.matched _ b c :: r => matchedHist t (update_history s b c t) r
  | _ :: r => matchedHist t s r

/-- The id-allocation and history updates performed by the second pass. -/
def freshState (t : ℚ) (s : TrackerState) : List MatchTag → TrackerState
  | [] => s
  | MatchTag.unmatched _ c :: r =>
      freshState t
        (update_history { s with next_id := s.next_id + 1 } (objName s.next_id) c t) r
  | _ :: r => freshState t s r

/-- The output detection list (input order, ids assigned), numbering fresh
ids from `n`. -/
def pass2Out (n : Nat) : List MatchTag → List Detection
  | [] => []
  | MatchTag.skipped d :: r => d :: pass2Out n r
  | MatchTag.matched d b _ :: r => { d with id := b } :: pass2Out n r
  | MatchTag.unmatched d _ :: r => { d with id := objName n } :: pass2Out (n + 1) r

/-- Reference description of the id assignment of
`update_tracks(detections, timestamp)` alone: every detection with a
computable center is matched against the full entry-time `last_positions`
(no track is ever marked claimed), the nearest track strictly within 50px
wins, and the rest receive sequential fresh ids. -/
def assignIds (lp : List (String × Pos)) : Nat → List Detection → List Detection
  | _, [] => []
  | n, d :: r =>
    match d.center with
    | none => d :: assignIds lp n r
    | some c =>
      match findBest lp c with
      | some (bid, _) =>
          if bid = "" then { d with id := objName n } :: assignIds lp (n + 1) r
          else { d with id := bid } :: assignIds lp n r
      | none => { d with id := objName n } :: assignIds lp (n + 1) r

/-- Feed a sequence of `(position, timestamp)` samples for a single id into
a fresh tracker's `_update_history` (capacity `maxH`). -/
def feedPositions (maxH : Nat) (objId : String) (samples : List (Pos × ℚ)) :
    TrackerState :=
  samples.foldl (fun st pt => update_history st objId pt.1 pt.2) (tracker_init maxH)

/-- The `(x, y, timestamp)` history triples corresponding to a sample list. -/
def sampleTriples (samples : List (Pos × ℚ)) : List (ℚ × ℚ × ℚ) :=
  samples.map (fun pt => (pt.1.1, pt.1.2, pt.2))

/-- The per-frame visible vehicle counts computed by
`process_frame_detections` (`frame_counts` in the source), independent of
any crossing logic. -/
def frame_counts (dets : List Detection) : HourCounts :=
  dets.foldl
    (fun fc d => if d.class_name ∈ stopped_vehicle_classes then incCount fc d.class_name else fc)
    zeroHour

/-- Process a sequence of frames through `TrafficMonitor`, threading the
tracker. -/
def run_frames (m : MonitorState) (tr : TrackerState)
    (frames : List (List Detection × ℚ)) : MonitorState × TrackerState :=
  frames.foldl (fun acc fr => process_frame_detections acc.1 acc.2 fr.1 fr.2) (m, tr)

/-- Componentwise order on per-type count tables. -/
def hcLe (a b : HourCounts) : Prop :=
  a.car ≤ b.car ∧ a.motorbike ≤ b.motorbike ∧ a.truck ≤ b.truck ∧ a.bus ≤ b.bus

/-- A history entry that the stale-track purge at time `t` (with the fixed
`max_age = 2.0` of `update_tracks`) will keep: absent, empty, or with a
fresh last sample.  Every id written to `current_positions` during an
`update_tracks` call has such an entry, which is why the final
`_cleanup_old_tracks` never removes a track assigned in the same call. -/
def freshEntry (t : ℚ) (o : Option (List (ℚ × ℚ × ℚ))) : Prop :=
  match o with
  | none => True
  | some h => isStale t 2 h = false

/-! ## Association-list lemmas -/

theorem alookup_nil {κ α : Type} [DecidableEq κ] (k : κ) :
    alookup ([] : List (κ × α)) k = none := rfl

theorem alookup_cons {κ α : Type} [DecidableEq κ] (p : κ × α) (l : List (κ × α)) (k : κ) :
    alookup (p :: l) k = if p.1 = k then some p.2 else alookup l k := by
  cases p; rfl

theorem alookup_aset_self {κ α : Type} [DecidableEq κ] (l : List (κ × α)) (k : κ) (v : α) :
    alookup (aset l k v) k = some v := by
  induction l with
  | nil => simp [aset, alookup]
  | cons p rest ih =>
    by_cases h : p.1 = k
    · cases p; simp_all [aset, alookup]
    · cases p; simp_all [aset, alookup]

theorem alookup_aset_ne {κ α : Type} [DecidableEq κ] (l : List (κ × α)) (k k' : κ) (v : α)
    (h : k' ≠ k) : alookup (aset l k v) k' = alookup l k' := by
  have hk : ¬k = k' := fun e => h e.symm
  induction l with
  | nil => simp [aset, alookup, hk]
  | cons p rest ih =>
    cases p with
    | mk pk pv =>
      by_cases hpk : pk = k
      · subst hpk
        simp [aset, alookup, hk]
      · simp only [aset, if_neg hpk, alookup]
        by_cases hpk' : pk = k'
        · simp [hpk']
        · simp [hpk', ih]

theorem alookup_aset_isSome {κ α : Type} [DecidableEq κ] (l : List (κ × α)) (k k' : κ) (v : α) :
    (alookup (aset l k v) k').isSome ↔ (alookup l k').isSome ∨ k' = k := by
  by_cases h : k' = k
  · subst h; simp [alookup_aset_self]
  · simp [alookup_aset_ne l k k' v h, h]

theorem alookup_append {κ α : Type} [DecidableEq κ] (l m : List (κ × α)) (k : κ) :
    alookup (l ++ m) k =
      match alookup l k with
      | some v => some v
      | none => alookup m k := by
  induction l with
  | nil => simp [alookup]
  | cons p rest ih =>
    cases p with
    | mk pk pv =>
      by_cases h : pk = k
      · simp [alookup, h]
      · simp [alookup, h, ih]

theorem alookup_append_some {κ α : Type} [DecidableEq κ] {l : List (κ × α)}
    (m : List (κ × α)) {k : κ} {v : α} (h : alookup l k = some v) :
    alookup (l ++ m) k = some v := by
  rw [alookup_append, h]

theorem alookup_append_none {κ α : Type} [DecidableEq κ] {l : List (κ × α)}
    (m : List (κ × α)) {k : κ} (h : alookup l k = none) :
    alookup (l ++ m) k = alookup m k := by
  rw [alookup_append, h]

theorem alookup_some_mem {κ α : Type} [DecidableEq κ] {l : List (κ × α)} {k : κ} {v : α}
    (h : alookup l k = some v) : (k, v) ∈ l := by
  induction l with
  | nil => simp [alookup] at h
  | cons p rest ih =>
    cases p with
    | mk pk pv =>
      by_cases hpk : pk = k
      · subst hpk
        simp [alookup] at h
        simp [h]
      · simp [alookup, hpk] at h
        exact List.mem_cons_of_mem _ (ih h)

theorem alookup_mem_isSome {κ α : Type} [DecidableEq κ] {l : List (κ × α)} {k : κ} {v : α}
    (h : (k, v) ∈ l) : (alookup l k).isSome := by
  induction l with
  | nil => simp at h
  | cons p rest ih =>
    rcases List.mem_cons.mp h with h1 | h2
    · subst h1; simp [alookup]
    · cases p with
      | mk pk pv =>
        by_cases hpk : pk = k
        · simp [alookup, hpk]
        · simp [alookup, hpk, ih h2]

theorem alookup_filter_ne {α : Type} (l : List (String × α)) (x k : String) (h : k ≠ x) :
    alookup (l.filter (fun p => decide (p.1 ≠ x))) k = alookup l k := by
  have hk : ¬x = k := fun e => h e.symm
  induction l with
  | nil => rfl
  | cons p rest ih =>
    by_cases hpx : p.1 = x
    · have hpred : (decide (p.1 ≠ x)) = false := by simp [hpx]
      simp only [List.filter_cons, hpred, Bool.false_eq_true, if_false, ih, alookup_cons]
      rw [hpx]
      simp [hk]
    · have hpred : (decide (p.1 ≠ x)) = true := by simp [hpx]
      simp only [List.filter_cons, hpred, if_true, alookup_cons, ih]

theorem asets_nil {κ α : Type} [DecidableEq κ] (l : List (κ × α)) : asets l [] = l := rfl

theorem asets_cons {κ α : Type} [DecidableEq κ] (l : List (κ × α)) (op : κ × α)
    (ops : List (κ × α)) : asets l (op :: ops) = asets (aset l op.1 op.2) ops := rfl

theorem asets_append {κ α : Type} [DecidableEq κ] (l o1 o2 : List (κ × α)) :
    asets l (o1 ++ o2) = asets (asets l o1) o2 := by
  unfold asets
  exact List.foldl_append _ _ _ _

theorem alookup_asets_isSome {κ α : Type} [DecidableEq κ] (ops : List (κ × α))
    (l : List (κ × α)) (k : κ) :
    (alookup (asets l ops) k).isSome ↔ (alookup l k).isSome ∨ k ∈ ops.map Prod.fst := by
  induction ops generalizing l with
  | nil => simp [asets]
  | cons op r ih =>
    rw [asets_cons, ih, alookup_aset_isSome]
    simp [or_assoc]

theorem alookup_asets_origin {κ α : Type} [DecidableEq κ] (ops : List (κ × α))
    (l : List (κ × α)) (k : κ) (v : α) (h : alookup (asets l ops) k = some v) :
    alookup l k = some v ∨ (k, v) ∈ ops := by
  induction ops generalizing l with
  | nil => exact Or.inl h
  | cons op r ih =>
    rw [asets_cons] at h
    rcases ih _ h with h1 | h2
    · by_cases hk : k = op.1
      · subst hk
        rw [alookup_aset_self] at h1
        right
        cases h1
        cases op
        simp
      · rw [alookup_aset_ne _ _ _ _ hk] at h1
        exact Or.inl h1
    · exact Or.inr (List.mem_cons_of_mem _ h2)

/-! ## Field-preservation lemmas for the tracker operations -/

@[simp] theorem update_history_next_id (s : TrackerState) (id : String) (p : Pos) (t : ℚ) :
    (update_history s id p t).next_id = s.next_id := rfl

@[simp] theorem update_history_counted (s : TrackerState) (id : String) (p : Pos) (t : ℚ) :
    (update_history s id p t).counted_ids = s.counted_ids := rfl

@[simp] theorem update_history_last_positions (s : TrackerState) (id : String) (p : Pos) (t : ℚ) :
    (update_history s id p t).last_positions = s.last_positions := rfl

@[simp] theorem update_history_max_history (s : TrackerState) (id : String) (p : Pos) (t : ℚ) :
    (update_history s id p t).max_history = s.max_history := rfl

@[simp] theorem cleanup_counted (s : TrackerState) (t a : ℚ) :
    (cleanup_old_tracks s t a).counted_ids = s.counted_ids := rfl

@[simp] theorem cleanup_next_id (s : TrackerState) (t a : ℚ) :
    (cleanup_old_tracks s t a).next_id = s.next_id := rfl

@[simp] theorem cleanup_max_history (s : TrackerState) (t a : ℚ) :
    (cleanup_old_tracks s t a).max_history = s.max_history := rfl

@[simp] theorem matchedHist_next_id (t : ℚ) :
    ∀ (tags : List MatchTag) (s : TrackerState), (matchedHist t s tags).next_id = s.next_id := by
  intro tags
  induction tags with
  | nil => intro s; rfl
  | cons tg r ih =>
    intro s
    cases tg with
    | skipped d => exact ih s
    | matched d b c => rw [matchedHist, ih, update_history_next_id]
    | unmatched d c => exact ih s

@[simp] theorem matchedHist_counted (t : ℚ) :
    ∀ (tags : List MatchTag) (s : TrackerState),
      (matchedHist t s tags).counted_ids = s.counted_ids := by
  intro tags
  induction tags with
  | nil => intro s; rfl
  | cons tg r ih =>
    intro s
    cases tg with
    | skipped d => exact ih s
    | matched d b c => rw [matchedHist, ih, update_history_counted]
    | unmatched d c => exact ih s

@[simp] theorem matchedHist_last_positions (t : ℚ) :
    ∀ (tags : List MatchTag) (s : TrackerState),
      (matchedHist t s tags).last_positions = s.last_positions := by
  intro tags
  induction tags with
  | nil => intro s; rfl
  | cons tg r ih =>
    intro s
    cases tg with
    | skipped d => exact ih s
    | matched d b c => rw [matchedHist, ih, update_history_last_positions]
    | unmatched d c => exact ih s

@[simp] theorem matchedHist_max_history (t : ℚ) :
    ∀ (tags : List MatchTag) (s : TrackerState),
      (matchedHist t s tags).max_history = s.max_history := by
  intro tags
  induction tags with
  | nil => intro s; rfl
  | cons tg r ih =>
    intro s
    cases tg with
    | skipped d => exact ih s
    | matched d b c => rw [matchedHist, ih, update_history_max_history]
    | unmatched d c => exact ih s

@[simp] theorem freshState_counted (t : ℚ) :
    ∀ (tags : List MatchTag) (s : TrackerState),
      (freshState t s tags).counted_ids = s.counted_ids := by
  intro tags
  induction tags with
  | nil => intro s; rfl
  | cons tg r ih =>
    intro s
    cases tg with
    | skipped d => exact ih s
    | matched d b c => exact ih s
    | unmatched d c => rw [freshState, ih, update_history_counted]

@[simp] theorem freshState_last_positions (t : ℚ) :
    ∀ (tags : List MatchTag) (s : TrackerState),
      (freshState t s tags).last_positions = s.last_positions := by
  intro tags
  induction tags with
  | nil => intro s; rfl
  | cons tg r ih =>
    intro s
    cases tg with
    | skipped d => exact ih s
    | matched d b c => exact ih s
    | unmatched d c => rw [freshState, ih, update_history_last_positions]

@[simp] theorem freshState_max_history (t : ℚ) :
    ∀ (tags : List MatchTag) (s : TrackerState),
      (freshState t s tags).max_history = s.max_history := by
  intro tags
  induction tags with
  | nil => intro s; rfl
  | cons tg r ih =>
    intro s
    cases tg with
    | skipped d => exact ih s
    | matched d b c => exact ih s
    | unmatched d c => rw [freshState, ih, update_history_max_history]

/-! ## Closed forms for the two passes of `update_tracks` -/

theorem matchfold_eq (lp : List (String × Pos)) (t : ℚ) :
    ∀ (dets : List Detection) (tags0 : List MatchTag) (cp : List (String × Pos))
      (s : TrackerState),
      dets.foldl (matchStep lp t) (tags0, cp, s) =
        (tags0 ++ tagsOf lp dets, asets cp (opsM (tagsOf lp dets)),
         matchedHist t s (tagsOf lp dets)) := by
  intro dets
  induction dets with
  | nil => intro tags0 cp s; simp [tagsOf, opsM, asets, matchedHist]
  | cons d r ih =>
    intro tags0 cp s
    rw [List.foldl_cons]
    cases hc : d.center with
    | none =>
      have hstep : matchStep lp t (tags0, cp, s) d = (tags0 ++ [MatchTag.skipped d], cp, s) := by
        simp [matchStep, hc]
      have htag : tagOf lp d = MatchTag.skipped d := by simp [tagOf, hc]
      rw [hstep, ih]
      simp [tagsOf, htag, opsM, matchedHist, List.append_assoc]
    | some c =>
      cases hfb : findBest lp c with
      | none =>
        have hstep : matchStep lp t (tags0, cp, s) d =
            (tags0 ++ [MatchTag.unmatched d c], cp, s) := by
          simp [matchStep, hc, hfb]
        have htag : tagOf lp d = MatchTag.unmatched d c := by simp [tagOf, hc, hfb]
        rw [hstep, ih]
        simp [tagsOf, htag, opsM, matchedHist, List.append_assoc]
      | some bd =>
        obtain ⟨bid, dd⟩ := bd
        by_cases hbid : bid = ""
        · have hstep : matchStep lp t (tags0, cp, s) d =
              (tags0 ++ [MatchTag.unmatched d c], cp, s) := by
            simp [matchStep, hc, hfb, hbid]
          have htag : tagOf lp d = MatchTag.unmatched d c := by simp [tagOf, hc, hfb, hbid]
          rw [hstep, ih]
          simp [tagsOf, htag, opsM, matchedHist, List.append_assoc]
        · have hstep : matchStep lp t (tags0, cp, s) d =
              (tags0 ++ [MatchTag.matched d bid c], aset cp bid c, update_history s bid c t) := by
            simp [matchStep, hc, hfb, hbid]
          have htag : tagOf lp d = MatchTag.matched d bid c := by simp [tagOf, hc, hfb, hbid]
          rw [hstep, ih]
          simp [tagsOf, htag, opsM, matchedHist, asets_cons, List.append_assoc]

theorem newfold_eq (t : ℚ) :
    ∀ (tags : List MatchTag) (out0 : List Detection) (cp : List (String × Pos))
      (s : TrackerState),
      tags.foldl (newIdStep t) (out0, cp, s) =
        (out0 ++ pass2Out s.next_id tags, asets cp (opsF s.next_id tags),
         freshState t s tags) := by
  intro tags
  induction tags with
  | nil => intro out0 cp s; simp [pass2Out, opsF, freshState, asets]
  | cons tg r ih =>
    intro out0 cp s
    rw [List.foldl_cons]
    cases tg with
    | skipped d =>
      show r.foldl (newIdStep t) (out0 ++ [d], cp, s) = _
      rw [ih]
      simp [pass2Out, opsF, freshState, List.append_assoc]
    | matched d b c =>
      show r.foldl (newIdStep t) (out0 ++ [{ d with id := b }], cp, s) = _
      rw [ih]
      simp [pass2Out, opsF, freshState, List.append_assoc]
    | unmatched d c =>
      show r.foldl (newIdStep t)
          (out0 ++ [{ d with id := objName s.next_id }],
           aset cp (objName s.next_id) c,
           update_history { s with next_id := s.next_id + 1 } (objName s.next_id) c t) = _
      rw [ih]
      simp [pass2Out, opsF, freshState, asets_cons, List.append_assoc]

theorem update_tracks_eq (s : TrackerState) (dets : List Detection) (t : ℚ) :
    update_tracks s dets t =
      (pass2Out s.next_id (tagsOf s.last_positions dets),
       cleanup_old_tracks
         { freshState t (matchedHist t s (tagsOf s.last_positions dets))
             (tagsOf s.last_positions dets) with
           last_positions :=
             asets [] (opsM (tagsOf s.last_positions dets)
                        ++ opsF s.next_id (tagsOf s.last_positions dets)) }
         t 2) := by
  simp only [update_tracks]
  simp only [matchfold_eq, List.nil_append]
  simp only [newfold_eq, matchedHist_next_id]
  rw [asets_append, List.nil_append]

/-! ## Justification of the squared-distance modelling -/

theorem distSq_nonneg (a b : Pos) : 0 ≤ distSq a b := by
  unfold distSq
  positivity

theorem sqrt_dist_lt_50_iff (a b : Pos) :
    Real.sqrt ((distSq a b : ℚ) : ℝ) < 50 ↔ distSq a b < 2500 := by
  rw [Real.sqrt_lt' (by norm_num : (0 : ℝ) < 50)]
  constructor
  · intro hlt
    have : ((distSq a b : ℚ) : ℝ) < ((2500 : ℚ) : ℝ) := by push_cast; linarith
    exact_mod_cast this
  · intro hlt
    have : ((distSq a b : ℚ) : ℝ) < ((2500 : ℚ) : ℝ) := by exact_mod_cast hlt
    push_cast at this
    linarith

theorem sqrt_dist_lt_sqrt_dist_iff (a b c d : Pos) :
    Real.sqrt ((distSq a b : ℚ) : ℝ) < Real.sqrt ((distSq c d : ℚ) : ℝ) ↔
      distSq a b < distSq c d := by
  rw [Real.sqrt_lt_sqrt_iff (by exact_mod_cast distSq_nonneg a b)]
  exact_mod_cast Iff.rfl

/-! ## `check_line_crossing`: case analysis and the counting claims -/

theorem check_line_crossing_cases (s : TrackerState) (objId : String)
    (lineStart lineEnd : Pos) (direction : String) :
    check_line_crossing s objId lineStart lineEnd direction = (false, s) ∨
    (objId ∉ s.counted_ids ∧
     check_line_crossing s objId lineStart lineEnd direction =
       (true, { s with counted_ids := objId :: s.counted_ids })) := by
  unfold check_line_crossing
  dsimp only
  repeat' split
  all_goals
    first
      | exact Or.inl rfl
      | (rename_i hmem; exact Or.inr ⟨hmem, rfl⟩)

/-- Claim C2: for every tracker state and id, (i) a `True` return from
`check_line_crossing` puts the id into the counted set, (ii) an id already
in the counted set can never get `True` again regardless of the geometry or
direction arguments, (iii) `check_line_crossing` never removes counted ids,
and (iv) `update_tracks` (including its stale-track purge) leaves the
counted set unchanged — so membership is monotonic, removed only by
`reset()`. -/
theorem C2_at_most_once_counting (s : TrackerState) (objId : String)
    (lineStart lineEnd : Pos) (direction : String) :
    ((check_line_crossing s objId lineStart lineEnd direction).1 = true →
      objId ∈ (check_line_crossing s objId lineStart lineEnd direction).2.counted_ids) ∧
    (objId ∈ s.counted_ids →
      (check_line_crossing s objId lineStart lineEnd direction).1 = false) ∧
    (∀ id, id ∈ s.counted_ids →
      id ∈ (check_line_crossing s objId lineStart lineEnd direction).2.counted_ids) ∧
    (∀ (dets : List Detection) (u : ℚ),
      (update_tracks s dets u).2.counted_ids = s.counted_ids) := by
  have hupd : ∀ (dets : List Detection) (u : ℚ),
      (update_tracks s dets u).2.counted_ids = s.counted_ids := by
    intro dets u
    rw [update_tracks_eq]
    simp
  rcases check_line_crossing_cases s objId lineStart lineEnd direction with h | ⟨hmem, h⟩
  · refine ⟨?_, ?_, ?_, hupd⟩
    · intro htrue
      rw [h] at htrue
      simp at htrue
    · intro _
      rw [h]
    · intro id hid
      rw [h]
      exact hid
  · refine ⟨?_, ?_, ?_, hupd⟩
    · intro _
      rw [h]
      exact List.mem_cons_self _ _
    · intro hIn
      exact absurd hIn hmem
    · intro id hid
      rw [h]
      exact List.mem_cons_of_mem _ hid

theorem C2_at_most_once_counting_witness :
    ("obj_1" ∈ (⟨30, [], [], 2, ["obj_1"]⟩ : TrackerState).counted_ids) ∧
    (check_line_crossing ⟨30, [], [], 2, ["obj_1"]⟩ "obj_1" (0, 0) (10, 0) "down").1 = false :=
  ⟨by simp,
   (C2_at_most_once_counting ⟨30, [], [], 2, ["obj_1"]⟩ "obj_1" (0, 0) (10, 0) "down").2.1
     (by simp)⟩

/-- Claim C10: `check_line_crossing` modifies no tracker state except the
counted-ids set; a `True` return adds exactly the queried (previously
uncounted) id, and every `False` return leaves the whole state unchanged. -/
theorem C10_crossing_frame_effect (s : TrackerState) (objId : String)
    (lineStart lineEnd : Pos) (direction : String) :
    ((check_line_crossing s objId lineStart lineEnd direction).1 = true →
      objId ∉ s.counted_ids ∧
      (check_line_crossing s objId lineStart lineEnd direction).2 =
        { s with counted_ids := objId :: s.counted_ids }) ∧
    ((check_line_crossing s objId lineStart lineEnd direction).1 = false →
      (check_line_crossing s objId lineStart lineEnd direction).2 = s) := by
  rcases check_line_crossing_cases s objId lineStart lineEnd direction with h | ⟨hmem, h⟩
  · constructor
    · intro htrue
      rw [h] at htrue
      simp at htrue
    · intro _
      rw [h]
  · constructor
    · intro _
      rw [h]
      exact ⟨hmem, rfl⟩
    · intro hfalse
      rw [h] at hfalse
      simp at hfalse

theorem C10_crossing_frame_effect_witness :
    (check_line_crossing (tracker_init 30) "obj_9" (0, 0) (1, 1) "down").1 = false ∧
    (check_line_crossing (tracker_init 30) "obj_9" (0, 0) (1, 1) "down").2 = tracker_init 30 :=
  ⟨rfl, (C10_crossing_frame_effect (tracker_init 30) "obj_9" (0, 0) (1, 1) "down").2 rfl⟩

/-- Claim C5: whenever the segment between an id's last two history points
intersects the counting line but the movement component along the configured
direction axis is not positive in that direction (`down` with
`y_curr ≤ y_prev`, `up` with `y_curr ≥ y_prev`, `left` with
`x_curr ≥ x_prev`, `right` with `x_curr ≤ x_prev`), `check_line_crossing`
returns `False`. -/
theorem C5_direction_gating (s : TrackerState) (objId : String) (p1 p2 : Pos)
    (direction : String) (h : List (ℚ × ℚ × ℚ)) (pv cv : ℚ × ℚ × ℚ)
    (hh : alookup s.tracking_history objId = some h)
    (hl : last2 h = some (pv, cv))
    (hint : line_intersection (pv.1, pv.2.1) (cv.1, cv.2.1) p1 p2 = true)
    (hdir : (direction = "down" ∧ cv.2.1 ≤ pv.2.1) ∨
            (direction = "up" ∧ cv.2.1 ≥ pv.2.1) ∨
            (direction = "left" ∧ cv.1 ≥ pv.1) ∨
            (direction = "right" ∧ cv.1 ≤ pv.1)) :
    (check_line_crossing s objId p1 p2 direction).1 = false := by
  have hud : ¬("up" : String) = "down" := by decide
  have hld : ¬("left" : String) = "down" := by decide
  have hlu : ¬("left" : String) = "up" := by decide
  have hrd : ¬("right" : String) = "down" := by decide
  have hru : ¬("right" : String) = "up" := by decide
  have hrl : ¬("right" : String) = "left" := by decide
  unfold check_line_crossing
  rw [hh]
  by_cases hlen : h.length < 2
  · simp [hlen]
  · rcases hdir with ⟨hd, hc⟩ | ⟨hd, hc⟩ | ⟨hd, hc⟩ | ⟨hd, hc⟩ <;> subst hd <;>
      simp [hlen, hl, hint, hc, hud, hld, hlu, hrd, hru, hrl]

theorem C5_direction_gating_witness :
    (line_intersection (5, 3) (5, -3) (0, 0) (10, 0) = true) ∧
    (check_line_crossing
        ⟨30, [("obj_1", [(5, 3, 0), (5, -3, 1)])], [("obj_1", (5, -3))], 2, []⟩
        "obj_1" (0, 0) (10, 0) "down").1 = false :=
  ⟨by norm_num [line_intersection, ccw],
   C5_direction_gating
     ⟨30, [("obj_1", [(5, 3, 0), (5, -3, 1)])], [("obj_1", (5, -3))], 2, []⟩
     "obj_1" (0, 0) (10, 0) "down" [(5, 3, 0), (5, -3, 1)] (5, 3, 0) (5, -3, 1)
     rfl rfl (by norm_num [line_intersection, ccw]) (Or.inl ⟨rfl, by norm_num⟩)⟩

/-- Claim C8: `start_full_video_analysis` returns the sentinel `-1` without
spawning a worker when a session is already analyzing (state untouched), and
returns `-1` (no worker) when the video source cannot be opened or when
allocating the video record fails; otherwise it returns the allocated video
id, transitions the session to analyzing, and spawns the worker. -/
theorem C8_start_session_gating (s : OrchState) (env : StartEnv) :
    (s.is_analyzing = true →
      start_full_video_analysis s env = (-1, s, false)) ∧
    (s.is_analyzing = false → env.open_ok = false →
      (start_full_video_analysis s env).1 = -1 ∧
      (start_full_video_analysis s env).2.2 = false) ∧
    (s.is_analyzing = false → env.created_video_id = none →
      (start_full_video_analysis s env).1 = -1 ∧
      (start_full_video_analysis s env).2.2 = false) ∧
    (∀ vid : ℤ, s.is_analyzing = false → env.open_ok = true →
      env.created_video_id = some vid →
      (start_full_video_analysis s env).1 = vid ∧
      (start_full_video_analysis s env).2.1.is_analyzing = true ∧
      (start_full_video_analysis s env).2.2 = true) := by
  refine ⟨?_, ?_, ?_, ?_⟩
  · intro h
    simp [start_full_video_analysis, h]
  · intro h1 h2
    simp [start_full_video_analysis, h1, h2]
  · intro h1 h2
    by_cases h3 : env.open_ok = false
    · simp [start_full_video_analysis, h1, h3]
    · have h3' : env.open_ok = true := by
        cases henv : env.open_ok
        · exact absurd henv h3
        · rfl
      simp [start_full_video_analysis, h1, h3', h2]
  · intro vid h1 h2 h3
    simp [start_full_video_analysis, h1, h2, h3]

theorem C8_start_session_gating_witness :
    (start_full_video_analysis
        ⟨false, false, false, none, tracker_init 30,
         monitor_init (100, 300) (800, 300) "down", anomaly_init 20⟩
        ⟨true, some 7⟩).1 = 7 ∧
    (start_full_video_analysis
        ⟨false, false, false, none, tracker_init 30,
         monitor_init (100, 300) (800, 300) "down", anomaly_init 20⟩
        ⟨true, some 7⟩).2.1.is_analyzing = true ∧
    (start_full_video_analysis
        ⟨false, false, false, none, tracker_init 30,
         monitor_init (100, 300) (800, 300) "down", anomaly_init 20⟩
        ⟨true, some 7⟩).2.2 = true :=
  (C8_start_session_gating
      ⟨false, false, false, none, tracker_init 30,
       monitor_init (100, 300) (800, 300) "down", anomaly_init 20⟩
      ⟨true, some 7⟩).2.2.2 7 rfl rfl rfl

/-! ## The bounded-deque history (claim C6) -/

theorem dequeAppend_eq_drop {α : Type} (m : Nat) (l : List α) (x : α) :
    dequeAppend m l x = (l ++ [x]).drop ((l ++ [x]).length - m) := by
  unfold dequeAppend
  by_cases h : m < (l ++ [x]).length
  · rw [if_pos h]
  · rw [if_neg h]
    have h0 : (l ++ [x]).length - m = 0 := by omega
    rw [h0, List.drop_zero]

theorem dequeFold {α : Type} (m : Nat) :
    ∀ (xs : List α) (h : List α), h.length ≤ m →
      xs.foldl (dequeAppend m) h = (h ++ xs).drop ((h ++ xs).length - m) := by
  intro xs
  induction xs with
  | nil =>
    intro h hh
    rw [List.foldl_nil, List.append_nil]
    have h0 : h.length - m = 0 := by omega
    rw [h0, List.drop_zero]
  | cons x xs ih =>
    intro h hh
    rw [List.foldl_cons]
    have hlen : (dequeAppend m h x).length ≤ m := by
      rw [dequeAppend_eq_drop, List.length_drop]
      omega
    rw [ih _ hlen, dequeAppend_eq_drop]
    have hk1 : (h ++ [x]).length - m ≤ (h ++ [x]).length := Nat.sub_le _ _
    rw [← List.drop_append_of_le_length hk1, List.drop_drop, List.length_drop]
    have hL : (h ++ [x]) ++ xs = h ++ x :: xs := by simp
    rw [hL]
    congr 1
    simp only [List.length_append, List.length_cons, List.length_nil]
    omega

theorem feed_alookup (maxH : Nat) (objId : String) :
    ∀ (samples : List (Pos × ℚ)) (st : TrackerState) (h0 : List (ℚ × ℚ × ℚ)),
      st.max_history = maxH →
      alookup st.tracking_history objId = some h0 →
      alookup
        ((samples.foldl (fun st pt => update_history st objId pt.1 pt.2) st).tracking_history)
        objId
        = some (List.foldl (dequeAppend maxH) h0 (sampleTriples samples)) := by
  intro samples
  induction samples with
  | nil =>
    intro st h0 hm hl
    simpa [sampleTriples] using hl
  | cons pt rest ih =>
    intro st h0 hm hl
    rw [List.foldl_cons]
    have hstep : alookup (update_history st objId pt.1 pt.2).tracking_history objId
        = some (dequeAppend maxH h0 (pt.1.1, pt.1.2, pt.2)) := by
      unfold update_history
      rw [alookup_aset_self, hl, hm]
      rfl
    have := ih (update_history st objId pt.1 pt.2) (dequeAppend maxH h0 (pt.1.1, pt.1.2, pt.2))
      (by rw [update_history_max_history, hm]) hstep
    rw [this]
    rfl

/-- Claim C6: after more than `max_history` samples have been appended for
one id, that id's history has length exactly `max_history` and consists of
exactly the `max_history` most recent `(x, y, timestamp)` samples in order
(the oldest evicted first). -/
theorem C6_history_bound (maxH : Nat) (objId : String) (samples : List (Pos × ℚ))
    (hlen : maxH < samples.length) :
    alookup (feedPositions maxH objId samples).tracking_history objId =
      some ((sampleTriples samples).drop (samples.length - maxH)) ∧
    ((sampleTriples samples).drop (samples.length - maxH)).length = maxH := by
  have htl : (sampleTriples samples).length = samples.length := by
    unfold sampleTriples
    exact List.length_map _ _
  constructor
  · cases samples with
    | nil => simp at hlen
    | cons s0 rest =>
      unfold feedPositions
      rw [List.foldl_cons]
      have hfirst : alookup
          (update_history (tracker_init maxH) objId s0.1 s0.2).tracking_history objId
          = some (dequeAppend maxH [] (s0.1.1, s0.1.2, s0.2)) := by
        unfold update_history tracker_init
        rw [alookup_aset_self]
        rfl
      have := feed_alookup maxH objId rest
        (update_history (tracker_init maxH) objId s0.1 s0.2)
        (dequeAppend maxH [] (s0.1.1, s0.1.2, s0.2)) rfl hfirst
      rw [this]
      have hfold : List.foldl (dequeAppend maxH) (dequeAppend maxH [] (s0.1.1, s0.1.2, s0.2))
          (sampleTriples rest)
          = List.foldl (dequeAppend maxH) [] (sampleTriples (s0 :: rest)) := rfl
      rw [hfold, dequeFold maxH _ [] (by simp)]
      rw [List.nil_append]
      congr 1
      rw [htl]
  · rw [List.length_drop, htl]
    omega

theorem C6_history_bound_witness :
    (2 : Nat) < ([((0, 0), 0), ((1, 1), 1), ((2, 2), 2)] : List (Pos × ℚ)).length ∧
    alookup (feedPositions 2 "obj_1"
        [((0, 0), 0), ((1, 1), 1), ((2, 2), 2)]).tracking_history "obj_1" =
      some ((sampleTriples [((0, 0), 0), ((1, 1), 1), ((2, 2), 2)]).drop
        (([((0, 0), 0), ((1, 1), 1), ((2, 2), 2)] : List (Pos × ℚ)).length - 2)) :=
  ⟨by simp,
   (C6_history_bound 2 "obj_1" [((0, 0), 0), ((1, 1), 1), ((2, 2), 2)] (by simp)).1⟩

/-! ## Movement classification and the stopped-vehicle dwell logic -/

theorem movement_unknown_stopped (s : TrackerState) (id : String) (w : ℚ)
    (h : alookup s.tracking_history id = none) :
    (get_movement_info s id w).stopped = true := by
  unfold get_movement_info
  rw [h]

theorem movement_short_history_stopped (s : TrackerState) (id : String) (w : ℚ)
    (hist : List (ℚ × ℚ × ℚ)) (h : alookup s.tracking_history id = some hist)
    (hlen : hist.length < 2) :
    (get_movement_info s id w).stopped = true := by
  unfold get_movement_info
  rw [h]
  simp [hlen]

/-- Claim C4: for a stopped-vehicle-eligible detection that the tracker
reports as stopped at time `t`: `detect_anomalies` dispatches it to the
dwell logic; a missing entry is created with `start_time = t` and nothing is
emitted; an existing entry emits a `stopped_vehicle` anomaly of severity
`high` whose message carries `int(t - start_time)` seconds exactly when
`t - start_time` strictly exceeds the threshold (equality emits nothing),
and leaves the entry untouched, so the anomaly is re-emitted on every later
qualifying frame with no de-duplication. -/
theorem C4_stopped_vehicle_dwell (a : AnomalyState) (tr : TrackerState) (d : Detection)
    (t : ℚ) (hcls : d.class_name ∈ stopped_vehicle_classes)
    (hstopped : (get_movement_info tr d.id 1).stopped = true) :
    (detect_anomalies a tr [d] t =
      match check_stopped_vehicle a tr d t with
      | (some an, a2) => ([an], a2)
      | (none, a2) => ([], a2)) ∧
    (alookup a.stopped_vehicles d.id = none →
      check_stopped_vehicle a tr d t =
        (none, { a with stopped_vehicles :=
                  a.stopped_vehicles ++ [(d.id, ⟨t, d.center, d.class_name⟩)] })) ∧
    (∀ e, alookup a.stopped_vehicles d.id = some e →
      (a.stop_time_threshold < t - e.start_time →
        check_stopped_vehicle a tr d t =
          (some { anomaly_type := "stopped_vehicle"
                  message := "Xe " ++ d.class_name ++ " dừng bất thường ("
                    ++ toString (pyInt (t - e.start_time)) ++ "s)"
                  timestamp := t
                  object_id := d.id
                  object_class := d.class_name
                  position := d.center
                  bbox := d.bbox
                  severity := "high"
                  stop_duration := some (t - e.start_time)
                  vehicle_type := some d.class_name }, a)) ∧
      (¬ a.stop_time_threshold < t - e.start_time →
        check_stopped_vehicle a tr d t = (none, a))) := by
  have hnp : d.class_name ∉ pedestrian_classes ∧ d.class_name ∉ animal_classes ∧
      d.class_name ∉ obstacle_classes := by
    simp only [stopped_vehicle_classes, List.mem_cons, List.not_mem_nil, or_false] at hcls
    rcases hcls with h | h | h | h <;> rw [h] <;>
      exact ⟨by decide, by decide, by decide⟩
  refine ⟨?_, ?_, ?_⟩
  · unfold detect_anomalies
    rw [List.foldl_cons, List.foldl_nil]
    unfold anomaly_step
    rw [if_neg hnp.1, if_neg hnp.2.1, if_neg hnp.2.2, if_pos hcls]
    rcases hcsv : check_stopped_vehicle a tr d t with ⟨oan, a2⟩
    cases oan <;> simp
  · intro halo
    simp only [check_stopped_vehicle, hstopped, if_true, halo]
  · intro e halo
    constructor
    · intro hgt
      simp only [check_stopped_vehicle, hstopped, if_true, halo, if_pos hgt]
      rfl
    · intro hgt
      simp only [check_stopped_vehicle, hstopped, if_true, halo, if_neg hgt]

theorem C4_stopped_vehicle_dwell_witness :
    check_stopped_vehicle ⟨20, [("v", ⟨0, none, "car"⟩)]⟩ (tracker_init 30)
        ⟨"v", "car", 1, (0, 0, 2, 2), some (1, 1)⟩ 25 =
      (some { anomaly_type := "stopped_vehicle"
              message := "Xe " ++ "car" ++ " dừng bất thường ("
                ++ toString (pyInt ((25 : ℚ) - 0)) ++ "s)"
              timestamp := 25
              object_id := "v"
              object_class := "car"
              position := some (1, 1)
              bbox := (0, 0, 2, 2)
              severity := "high"
              stop_duration := some ((25 : ℚ) - 0)
              vehicle_type := some "car" },
       ⟨20, [("v", ⟨0, none, "car"⟩)]⟩) :=
  ((C4_stopped_vehicle_dwell ⟨20, [("v", ⟨0, none, "car"⟩)]⟩ (tracker_init 30)
      ⟨"v", "car", 1, (0, 0, 2, 2), some (1, 1)⟩ 25 (by decide)
      (movement_unknown_stopped (tracker_init 30) "v" 1 rfl)).2.2
    ⟨0, none, "car"⟩ rfl).1 (by norm_num)

/-! ## TrafficMonitor: hourly buckets (claim C7) -/

theorem add_vehicle_hourly (td : TrafficData) (vt : String) :
    (add_vehicle td vt).hourly_counts = td.hourly_counts := by
  unfold add_vehicle
  dsimp only
  repeat' split
  all_goals rfl

theorem frame_fold_fc (vline : Pos × Pos × String) :
    ∀ (dets : List Detection) (fc : HourCounts) (td : TrafficData) (tr : TrackerState),
      (dets.foldl (frame_step vline) (fc, td, tr)).1 =
        dets.foldl
          (fun fc d =>
            if d.class_name ∈ stopped_vehicle_classes then incCount fc d.class_name else fc)
          fc := by
  intro dets
  induction dets with
  | nil => intro fc td tr; rfl
  | cons d r ih =>
    intro fc td tr
    rw [List.foldl_cons, List.foldl_cons]
    unfold frame_step
    by_cases hcls : d.class_name ∈ stopped_vehicle_classes
    · rw [if_pos hcls, if_pos hcls]
      dsimp only
      split
      · exact ih _ _ _
      · exact ih _ _ _
    · rw [if_neg hcls, if_neg hcls]
      exact ih _ _ _

theorem frame_fold_hourly (vline : Pos × Pos × String) :
    ∀ (dets : List Detection) (fc : HourCounts) (td : TrafficData) (tr : TrackerState),
      (dets.foldl (frame_step vline) (fc, td, tr)).2.1.hourly_counts = td.hourly_counts := by
  intro dets
  induction dets with
  | nil => intro fc td tr; rfl
  | cons d r ih =>
    intro fc td tr
    rw [List.foldl_cons]
    unfold frame_step
    by_cases hcls : d.class_name ∈ stopped_vehicle_classes
    · rw [if_pos hcls]
      dsimp only
      split
      · exact (ih _ _ _).trans (add_vehicle_hourly _ _)
      · exact ih _ _ _
    · rw [if_neg hcls]
      exact ih _ _ _

theorem update_hourly_lookup_self (td : TrafficData) (t : ℚ) (fc : HourCounts) :
    alookup (update_hourly_stats td t fc).hourly_counts (pyHour t) =
      some (hourMax ((alookup td.hourly_counts (pyHour t)).getD zeroHour) fc) := by
  unfold update_hourly_stats
  dsimp only
  cases h : alookup td.hourly_counts (pyHour t) with
  | some cur => simp [h, alookup_aset_self]
  | none =>
    have happ : alookup (td.hourly_counts ++ [(pyHour t, zeroHour)]) (pyHour t)
        = some zeroHour := by
      rw [alookup_append_none _ h]
      simp [alookup]
    simp [h, happ, alookup_aset_self]

theorem update_hourly_lookup_other (td : TrafficData) (t : ℚ) (fc : HourCounts)
    (h' : ℤ) (hne : h' ≠ pyHour t) :
    alookup (update_hourly_stats td t fc).hourly_counts h' = alookup td.hourly_counts h' := by
  unfold update_hourly_stats
  dsimp only
  cases h : alookup td.hourly_counts (pyHour t) with
  | some cur => simp [h, alookup_aset_ne _ _ _ _ hne]
  | none =>
    have hne' : ¬(pyHour t) = h' := fun e => hne e.symm
    have happ : alookup (td.hourly_counts ++ [(pyHour t, zeroHour)]) h'
        = alookup td.hourly_counts h' := by
      rw [alookup_append]
      cases h2 : alookup td.hourly_counts h' <;> simp [alookup, hne']
    simp [h, alookup_aset_ne _ _ _ _ hne, happ]

theorem update_hourly_congr (td td' : TrafficData) (t : ℚ) (fc : HourCounts)
    (h : td.hourly_counts = td'.hourly_counts) :
    (update_hourly_stats td t fc).hourly_counts =
      (update_hourly_stats td' t fc).hourly_counts := by
  unfold update_hourly_stats
  dsimp only
  rw [h]

theorem process_bucket_self (m : MonitorState) (tr : TrackerState)
    (dets : List Detection) (t : ℚ) :
    alookup (process_frame_detections m tr dets t).1.traffic_data.hourly_counts (pyHour t) =
      some (hourMax ((alookup m.traffic_data.hourly_counts (pyHour t)).getD zeroHour)
        (frame_counts dets)) := by
  unfold process_frame_detections
  dsimp only
  rw [update_hourly_lookup_self, frame_fold_hourly, frame_fold_fc]
  rfl

theorem process_bucket_other (m : MonitorState) (tr : TrackerState)
    (dets : List Detection) (t : ℚ) (h' : ℤ) (hne : h' ≠ pyHour t) :
    alookup (process_frame_detections m tr dets t).1.traffic_data.hourly_counts h' =
      alookup m.traffic_data.hourly_counts h' := by
  unfold process_frame_detections
  dsimp only
  rw [update_hourly_lookup_other _ _ _ _ hne, frame_fold_hourly]

theorem run_frames_bucket (h : ℤ) :
    ∀ (frames : List (List Detection × ℚ)) (m : MonitorState) (tr : TrackerState)
      (cur : HourCounts),
      (∀ fr ∈ frames, pyHour fr.2 = h) →
      alookup m.traffic_data.hourly_counts h = some cur →
      alookup (run_frames m tr frames).1.traffic_data.hourly_counts h =
        some (frames.foldl (fun c fr => hourMax c (frame_counts fr.1)) cur) := by
  intro frames
  induction frames with
  | nil =>
    intro m tr cur _ hcur
    simpa [run_frames] using hcur
  | cons fr rest ih =>
    intro m tr cur hall hcur
    unfold run_frames
    rw [List.foldl_cons, List.foldl_cons]
    have hfr : pyHour fr.2 = h := hall fr (List.mem_cons_self _ _)
    have hbucket := process_bucket_self m tr fr.1 fr.2
    rw [hfr, hcur] at hbucket
    simp only [Option.getD_some] at hbucket
    have hrest := ih (process_frame_detections m tr fr.1 fr.2).1
      (process_frame_detections m tr fr.1 fr.2).2 (hourMax cur (frame_counts fr.1))
      (fun g hg => hall g (List.mem_cons_of_mem _ hg)) hbucket
    unfold run_frames at hrest
    simpa using hrest

/-- Claim C7: every `process_frame_detections` call updates the hourly
bucket keyed by `int(timestamp // 3600)` to the componentwise max of the
previously stored value and the current frame's per-type visible counts;
other buckets are untouched; the hourly table is independent of the tracker
state (hence of any line-crossing results); consequently the stored values
are non-decreasing, and over a sequence of frames within one hour the
bucket equals the running max of the per-frame visible counts — not a
cumulative sum. -/
theorem C7_hourly_max_snapshot (m : MonitorState) (tr : TrackerState)
    (dets : List Detection) (t : ℚ) :
    (alookup (process_frame_detections m tr dets t).1.traffic_data.hourly_counts (pyHour t) =
      some (hourMax ((alookup m.traffic_data.hourly_counts (pyHour t)).getD zeroHour)
        (frame_counts dets))) ∧
    (∀ h' : ℤ, h' ≠ pyHour t →
      alookup (process_frame_detections m tr dets t).1.traffic_data.hourly_counts h' =
        alookup m.traffic_data.hourly_counts h') ∧
    (∀ tr' : TrackerState,
      (process_frame_detections m tr dets t).1.traffic_data.hourly_counts =
        (process_frame_detections m tr' dets t).1.traffic_data.hourly_counts) ∧
    hcLe ((alookup m.traffic_data.hourly_counts (pyHour t)).getD zeroHour)
      ((alookup (process_frame_detections m tr dets t).1.traffic_data.hourly_counts
          (pyHour t)).getD zeroHour) ∧
    (∀ (frames : List (List Detection × ℚ)) (h : ℤ),
      (∀ fr ∈ frames, pyHour fr.2 = h) →
      alookup m.traffic_data.hourly_counts h = none →
      frames ≠ [] →
      alookup (run_frames m tr frames).1.traffic_data.hourly_counts h =
        some (frames.foldl (fun c fr => hourMax c (frame_counts fr.1)) zeroHour)) := by
  refine ⟨process_bucket_self m tr dets t, ?_, ?_, ?_, ?_⟩
  · intro h' hne
    exact process_bucket_other m tr dets t h' hne
  · intro tr'
    unfold process_frame_detections
    dsimp only
    have hfc : (dets.foldl (frame_step m.virtual_line) (zeroHour, m.traffic_data, tr)).1 =
        (dets.foldl (frame_step m.virtual_line) (zeroHour, m.traffic_data, tr')).1 := by
      rw [frame_fold_fc, frame_fold_fc]
    rw [hfc]
    exact update_hourly_congr _ _ _ _
      ((frame_fold_hourly _ _ _ _ _).trans (frame_fold_hourly _ _ _ _ _).symm)
  · rw [process_bucket_self m tr dets t]
    unfold hcLe hourMax
    refine ⟨?_, ?_, ?_, ?_⟩ <;> simp
  · intro frames h hall hnone hne
    cases frames with
    | nil => exact absurd rfl hne
    | cons fr rest =>
      have hfr : pyHour fr.2 = h := hall fr (List.mem_cons_self _ _)
      have hbucket := process_bucket_self m tr fr.1 fr.2
      rw [hfr, hnone] at hbucket
      simp only [Option.getD_none] at hbucket
      have hrest := run_frames_bucket h rest (process_frame_detections m tr fr.1 fr.2).1
        (process_frame_detections m tr fr.1 fr.2).2 (hourMax zeroHour (frame_counts fr.1))
        (fun g hg => hall g (List.mem_cons_of_mem _ hg)) hbucket
      unfold run_frames
      rw [List.foldl_cons, List.foldl_cons]
      unfold run_frames at hrest
      simpa using hrest

theorem C7_hourly_max_snapshot_witness :
    alookup (run_frames (monitor_init (100, 300) (800, 300) "down") (tracker_init 30)
        [([⟨"", "car", 1, (0, 0, 2, 2), some (1, 1)⟩], 0)]).1.traffic_data.hourly_counts 0 =
      some (hourMax zeroHour (frame_counts [⟨"", "car", 1, (0, 0, 2, 2), some (1, 1)⟩])) := by
  have h0 : pyHour 0 = 0 := by norm_num [pyHour]
  have h := (C7_hourly_max_snapshot (monitor_init (100, 300) (800, 300) "down")
      (tracker_init 30) [] 0).2.2.2.2
    [([⟨"", "car", 1, (0, 0, 2, 2), some (1, 1)⟩], 0)] 0
    (by intro fr hfr
        simp only [List.mem_singleton] at hfr
        rw [hfr]
        exact h0)
    rfl (by simp)
  have hfold : ([([(⟨"", "car", 1, (0, 0, 2, 2), some (1, 1)⟩ : Detection)], (0 : ℚ))].foldl
      (fun c fr => hourMax c (frame_counts fr.1)) zeroHour) =
      hourMax zeroHour (frame_counts [⟨"", "car", 1, (0, 0, 2, 2), some (1, 1)⟩]) := rfl
  rw [hfold] at h
  exact h

/-! ## Specification of the nearest-track search -/

theorem considerFold_none (c : Pos) :
    ∀ (l : List (String × Pos)) (acc : Option (String × ℚ)),
      l.foldl (considerTrack c) acc = none →
      acc = none ∧ ∀ e ∈ l, ¬ distSq c e.2 < 2500 := by
  intro l
  induction l with
  | nil =>
    intro acc h
    exact ⟨h, by simp⟩
  | cons e r ih =>
    intro acc h
    rw [List.foldl_cons] at h
    obtain ⟨hacc', hr⟩ := ih _ h
    have hstep : acc = none ∧ ¬ distSq c e.2 < 2500 := by
      unfold considerTrack at hacc'
      cases acc with
      | none =>
        by_cases hd : distSq c e.2 < 2500
        · rw [if_pos hd] at hacc'
          cases hacc'
        · exact ⟨rfl, hd⟩
      | some p =>
        obtain ⟨b0, d0⟩ := p
        dsimp only at hacc'
        by_cases hd : distSq c e.2 < 2500 ∧ distSq c e.2 < d0
        · rw [if_pos hd] at hacc'
          cases hacc'
        · rw [if_neg hd] at hacc'
          cases hacc'
    refine ⟨hstep.1, ?_⟩
    intro x hx
    rcases List.mem_cons.mp hx with h1 | h2
    · subst h1
      exact hstep.2
    · exact hr x h2

theorem considerFold_some (c : Pos) :
    ∀ (l : List (String × Pos)) (acc : Option (String × ℚ)) (bid : String) (dd : ℚ),
      l.foldl (considerTrack c) acc = some (bid, dd) →
      (acc = some (bid, dd) ∨ ((∃ p, (bid, p) ∈ l ∧ distSq c p = dd) ∧ dd < 2500)) ∧
      (∀ e ∈ l, distSq c e.2 < 2500 → dd ≤ distSq c e.2) ∧
      (∀ b0 d0, acc = some (b0, d0) → dd ≤ d0) := by
  intro l
  induction l with
  | nil =>
    intro acc bid dd h
    rw [List.foldl_nil] at h
    refine ⟨Or.inl h, by simp, ?_⟩
    intro b0 d0 hacc
    rw [h] at hacc
    simp only [Option.some.injEq, Prod.mk.injEq] at hacc
    exact le_of_eq hacc.2
  | cons e r ih =>
    intro acc bid dd h
    rw [List.foldl_cons] at h
    obtain ⟨horigin, hmin, hbound⟩ := ih (considerTrack c acc e) bid dd h
    cases acc with
    | none =>
      by_cases hd : distSq c e.2 < 2500
      · have hstep : considerTrack c none e = some (e.1, distSq c e.2) := by
          unfold considerTrack
          rw [if_pos hd]
        refine ⟨?_, ?_, ?_⟩
        · right
          rcases horigin with h1 | h1
          · rw [hstep] at h1
            simp only [Option.some.injEq, Prod.mk.injEq] at h1
            refine ⟨⟨e.2, ?_, h1.2⟩, ?_⟩
            · rw [← h1.1, Prod.mk.eta]
              exact List.mem_cons_self _ _
            · rw [← h1.2]
              exact hd
          · obtain ⟨⟨p, hp, hdp⟩, hdd⟩ := h1
            exact ⟨⟨p, List.mem_cons_of_mem _ hp, hdp⟩, hdd⟩
        · intro x hx hxlt
          rcases List.mem_cons.mp hx with h1 | h2
          · subst h1
            exact hbound _ _ hstep
          · exact hmin x h2 hxlt
        · intro b0 d0 hacc
          cases hacc
      · have hstep : considerTrack c none e = none := by
          unfold considerTrack
          rw [if_neg hd]
        refine ⟨?_, ?_, ?_⟩
        · rcases horigin with h1 | h1
          · rw [hstep] at h1
            cases h1
          · right
            obtain ⟨⟨p, hp, hdp⟩, hdd⟩ := h1
            exact ⟨⟨p, List.mem_cons_of_mem _ hp, hdp⟩, hdd⟩
        · intro x hx hxlt
          rcases List.mem_cons.mp hx with h1 | h2
          · subst h1
            exact absurd hxlt hd
          · exact hmin x h2 hxlt
        · intro b0 d0 hacc
          cases hacc
    | some p =>
      obtain ⟨b0, d0⟩ := p
      by_cases hd : distSq c e.2 < 2500 ∧ distSq c e.2 < d0
      · have hstep : considerTrack c (some (b0, d0)) e = some (e.1, distSq c e.2) := by
          unfold considerTrack
          dsimp only
          rw [if_pos hd]
        refine ⟨?_, ?_, ?_⟩
        · rcases horigin with h1 | h1
          · rw [hstep] at h1
            simp only [Option.some.injEq, Prod.mk.injEq] at h1
            right
            refine ⟨⟨e.2, ?_, h1.2⟩, ?_⟩
            · rw [← h1.1, Prod.mk.eta]
              exact List.mem_cons_self _ _
            · rw [← h1.2]
              exact hd.1
          · right
            obtain ⟨⟨p, hp, hdp⟩, hdd⟩ := h1
            exact ⟨⟨p, List.mem_cons_of_mem _ hp, hdp⟩, hdd⟩
        · intro x hx hxlt
          rcases List.mem_cons.mp hx with h1 | h2
          · subst h1
            exact hbound _ _ hstep
          · exact hmin x h2 hxlt
        · intro b1 d1 hacc
          simp only [Option.some.injEq, Prod.mk.injEq] at hacc
          have hdd0 : dd ≤ distSq c e.2 := hbound _ _ hstep
          calc dd ≤ distSq c e.2 := hdd0
            _ ≤ d0 := le_of_lt hd.2
            _ = d1 := hacc.2
      · have hstep : considerTrack c (some (b0, d0)) e = some (b0, d0) := by
          unfold considerTrack
          dsimp only
          rw [if_neg hd]
        refine ⟨?_, ?_, ?_⟩
        · rcases horigin with h1 | h1
          · rw [hstep] at h1
            exact Or.inl h1
          · right
            obtain ⟨⟨p, hp, hdp⟩, hdd⟩ := h1
            exact ⟨⟨p, List.mem_cons_of_mem _ hp, hdp⟩, hdd⟩
        · intro x hx hxlt
          rcases List.mem_cons.mp hx with h1 | h2
          · subst h1
            have hd0 : d0 ≤ distSq c x.2 := by
              by_contra hlt
              push_neg at hlt
              exact hd ⟨hxlt, hlt⟩
            exact le_trans (hbound _ _ hstep) hd0
          · exact hmin x h2 hxlt
        · intro b1 d1 hacc
          simp only [Option.some.injEq, Prod.mk.injEq] at hacc
          rw [← hacc.2]
          exact hbound _ _ hstep

theorem findBest_some_spec (lp : List (String × Pos)) (c : Pos) (bid : String) (dd : ℚ)
    (h : findBest lp c = some (bid, dd)) :
    (∃ p, (bid, p) ∈ lp ∧ distSq c p = dd) ∧ dd < 2500 ∧
      ∀ e ∈ lp, distSq c e.2 < 2500 → dd ≤ distSq c e.2 := by
  obtain ⟨horigin, hmin, _⟩ := considerFold_some c lp none bid dd h
  rcases horigin with h1 | h1
  · cases h1
  · exact ⟨h1.1, h1.2, hmin⟩

theorem findBest_none_spec (lp : List (String × Pos)) (c : Pos)
    (h : findBest lp c = none) :
    ∀ e ∈ lp, ¬ distSq c e.2 < 2500 :=
  (considerFold_none c lp none h).2

/-! ## Claim C1: the greedy matching has no claimed-track exclusion -/

theorem pass2Out_tagsOf (lp : List (String × Pos)) :
    ∀ (dets : List Detection) (n : Nat),
      pass2Out n (tagsOf lp dets) = assignIds lp n dets := by
  intro dets
  induction dets with
  | nil => intro n; rfl
  | cons d r ih =>
    intro n
    cases hc : d.center with
    | none =>
      have htag : tagOf lp d = MatchTag.skipped d := by simp [tagOf, hc]
      simp only [tagsOf, List.map_cons, htag, pass2Out, assignIds, hc]
      exact congrArg _ (ih n)
    | some c =>
      cases hfb : findBest lp c with
      | none =>
        have htag : tagOf lp d = MatchTag.unmatched d c := by simp [tagOf, hc, hfb]
        simp only [tagsOf, List.map_cons, htag, pass2Out, assignIds, hc, hfb]
        exact congrArg _ (ih (n + 1))
      | some bd =>
        obtain ⟨bid, dd⟩ := bd
        by_cases hbid : bid = ""
        · have htag : tagOf lp d = MatchTag.unmatched d c := by simp [tagOf, hc, hfb, hbid]
          simp only [tagsOf, List.map_cons, htag, pass2Out, assignIds, hc, hfb, hbid,
            if_pos]
          exact congrArg _ (ih (n + 1))
        · have htag : tagOf lp d = MatchTag.matched d bid c := by simp [tagOf, hc, hfb, hbid]
          simp only [tagsOf, List.map_cons, htag, pass2Out, assignIds, hc, hfb,
            if_neg hbid]
          exact congrArg _ (ih n)

theorem update_tracks_fst (s : TrackerState) (dets : List Detection) (t : ℚ) :
    (update_tracks s dets t).1 = assignIds s.last_positions s.next_id dets := by
  rw [update_tracks_eq]
  exact pass2Out_tagsOf _ _ _

/-- Claim C1 counterexample: one existing track `obj_1` at `(0, 0)` and two
detections in the same `update_tracks` call, both centred at `(0, 0)`.  The
matching loop never excludes an already-claimed track, so both detections
are assigned the same track id `obj_1` — refuting the claim's
"a claimed track is unavailable to later detections; no two detections in
one call are assigned the same track id". -/
theorem C1_greedy_matching_counterexample :
    ((update_tracks
        ⟨30, [("obj_1", [(0, 0, 0)])], [("obj_1", (0, 0))], 2, []⟩
        [⟨"", "car", 1, (0, 0, 0, 0), some (0, 0)⟩,
         ⟨"", "truck", 1, (0, 0, 0, 0), some (0, 0)⟩] 1).1.map Detection.id)
      = ["obj_1", "obj_1"] := by
  rw [update_tracks_fst]
  have hfb : findBest [("obj_1", (0, 0))] (0, 0) = some ("obj_1", 0) := by
    unfold findBest
    rw [List.foldl_cons, List.foldl_nil]
    unfold considerTrack
    dsimp only
    rw [if_pos (by norm_num [distSq])]
    norm_num [distSq]
  have hne : ¬("obj_1" : String) = "" := by decide
  simp only [assignIds, hfb, if_neg hne, List.map_cons, List.map_nil]

/-- Claim C1 (amended): each detection with a computable center is matched to
the existing track with the smallest Euclidean centroid distance among ALL
entry-time tracks — claimed or not, since the loop never excludes a claimed
track — exactly when that distance is strictly under 50px (squared form
`distSq < 2500`), as described by the reference assignment `assignIds`;
because tracks are not marked claimed, several detections in one call can be
assigned the same track id. -/
theorem C1_greedy_matching_amended (s : TrackerState) (dets : List Detection) (t : ℚ) :
    (update_tracks s dets t).1 = assignIds s.last_positions s.next_id dets ∧
    (∀ (c : Pos) (bid : String) (dd : ℚ),
      findBest s.last_positions c = some (bid, dd) →
      (∃ p, (bid, p) ∈ s.last_positions ∧ distSq c p = dd) ∧ dd < 2500 ∧
        ∀ e ∈ s.last_positions, distSq c e.2 < 2500 → dd ≤ distSq c e.2) ∧
    (∀ c : Pos, findBest s.last_positions c = none →
      ∀ e ∈ s.last_positions, ¬ distSq c e.2 < 2500) := by
  refine ⟨update_tracks_fst s dets t, ?_, ?_⟩
  · intro c bid dd h
    exact findBest_some_spec _ _ _ _ h
  · intro c h
    exact findBest_none_spec _ _ h

theorem C1_greedy_matching_amended_witness :
    (∃ p, (("obj_1", p) ∈ ([("obj_1", ((0 : ℚ), (0 : ℚ)))] : List (String × Pos)))
        ∧ distSq (0, 0) p = 0) ∧
    (0 : ℚ) < 2500 ∧
    ∀ e ∈ ([("obj_1", ((0 : ℚ), (0 : ℚ)))] : List (String × Pos)),
      distSq (0, 0) e.2 < 2500 → (0 : ℚ) ≤ distSq (0, 0) e.2 := by
  have hfb : findBest [("obj_1", (0, 0))] (0, 0) = some ("obj_1", 0) := by
    unfold findBest
    rw [List.foldl_cons, List.foldl_nil]
    unfold considerTrack
    dsimp only
    rw [if_pos (by norm_num [distSq])]
    norm_num [distSq]
  exact (C1_greedy_matching_amended ⟨30, [], [("obj_1", (0, 0))], 2, []⟩ [] 0).2.1
    (0, 0) "obj_1" 0 hfb

/-! ## Claim C9: the post-call contents of `last_positions` -/

theorem dequeAppend_last {α : Type} (m : Nat) (l : List α) (x : α) :
    dequeAppend m l x = [] ∨ (dequeAppend m l x).getLast? = some x := by
  rw [dequeAppend_eq_drop]
  by_cases hm : (l ++ [x]).length - m ≤ l.length
  · right
    rw [List.drop_append_of_le_length hm, List.getLast?_concat]
  · left
    apply List.drop_eq_nil_of_le
    simp only [List.length_append, List.length_cons, List.length_nil] at *
    omega

theorem freshEntry_update_self (S : TrackerState) (k : String) (p : Pos) (t : ℚ) :
    freshEntry t (alookup (update_history S k p t).tracking_history k) := by
  unfold update_history
  rw [alookup_aset_self]
  unfold freshEntry
  dsimp only
  rcases dequeAppend_last S.max_history ((alookup S.tracking_history k).getD [])
      (p.1, p.2, t) with h | h
  · rw [h]
    rfl
  · unfold isStale lastTs
    rw [h]
    have h20 : ¬(2 : ℚ) < 0 := by norm_num
    simp [sub_self, h20]

theorem alookup_update_history_other (S : TrackerState) (k' : String) (p : Pos) (t : ℚ)
    (k : String) (h : k ≠ k') :
    alookup (update_history S k' p t).tracking_history k = alookup S.tracking_history k := by
  unfold update_history
  exact alookup_aset_ne _ _ _ _ h

theorem matchedHist_alookup_not_key (t : ℚ) :
    ∀ (tags : List MatchTag) (S : TrackerState) (k : String),
      k ∉ (opsM tags).map Prod.fst →
      alookup (matchedHist t S tags).tracking_history k = alookup S.tracking_history k := by
  intro tags
  induction tags with
  | nil => intro S k _; rfl
  | cons tg r ih =>
    intro S k hk
    cases tg with
    | skipped d => exact ih S k hk
    | matched d b c =>
      simp only [opsM, List.map_cons, List.mem_cons, not_or] at hk
      simp only [matchedHist]
      rw [ih _ _ hk.2]
      exact alookup_update_history_other _ _ _ _ _ hk.1
    | unmatched d c => exact ih S k hk

theorem matchedHist_fresh (t : ℚ) :
    ∀ (tags : List MatchTag) (S : TrackerState) (k : String),
      k ∈ (opsM tags).map Prod.fst →
      freshEntry t (alookup (matchedHist t S tags).tracking_history k) := by
  intro tags
  induction tags with
  | nil =>
    intro S k h
    simp [opsM] at h
  | cons tg r ih =>
    intro S k hk
    cases tg with
    | skipped d => exact ih S k hk
    | matched d b c =>
      simp only [matchedHist]
      by_cases hkr : k ∈ (opsM r).map Prod.fst
      · exact ih _ k hkr
      · have hkb : k = b := by
          simp only [opsM, List.map_cons, List.mem_cons] at hk
          rcases hk with h1 | h1
          · exact h1
          · exact absurd h1 hkr
        subst hkb
        rw [matchedHist_alookup_not_key t r _ _ hkr]
        exact freshEntry_update_self _ _ _ _
    | unmatched d c => exact ih S k hk

theorem freshState_alookup_not_key (t : ℚ) :
    ∀ (tags : List MatchTag) (S : TrackerState) (k : String),
      k ∉ (opsF S.next_id tags).map Prod.fst →
      alookup (freshState t S tags).tracking_history k = alookup S.tracking_history k := by
  intro tags
  induction tags with
  | nil => intro S k _; rfl
  | cons tg r ih =>
    intro S k hk
    cases tg with
    | skipped d => exact ih S k hk
    | matched d b c => exact ih S k hk
    | unmatched d c =>
      simp only [opsF, List.map_cons, List.mem_cons, not_or] at hk
      simp only [freshState]
      rw [ih _ _ hk.2]
      exact alookup_update_history_other _ _ _ _ _ hk.1

theorem freshState_fresh (t : ℚ) :
    ∀ (tags : List MatchTag) (S : TrackerState) (k : String),
      k ∈ (opsF S.next_id tags).map Prod.fst →
      freshEntry t (alookup (freshState t S tags).tracking_history k) := by
  intro tags
  induction tags with
  | nil =>
    intro S k h
    simp [opsF] at h
  | cons tg r ih =>
    intro S k hk
    cases tg with
    | skipped d => exact ih S k hk
    | matched d b c => exact ih S k hk
    | unmatched d c =>
      simp only [freshState]
      by_cases hkr : k ∈ (opsF (S.next_id + 1) r).map Prod.fst
      · exact ih _ k hkr
      · have hkb : k = objName S.next_id := by
          simp only [opsF, List.map_cons, List.mem_cons] at hk
          rcases hk with h1 | h1
          · exact h1
          · exact absurd h1 hkr
        subst hkb
        rw [freshState_alookup_not_key t r _ _ hkr]
        exact freshEntry_update_self _ _ _ _

theorem final_state_fresh (s : TrackerState) (dets : List Detection) (t : ℚ) :
    ∀ k, k ∈ ((opsM (tagsOf s.last_positions dets)
        ++ opsF s.next_id (tagsOf s.last_positions dets)).map Prod.fst) →
      freshEntry t (alookup
        (freshState t (matchedHist t s (tagsOf s.last_positions dets))
          (tagsOf s.last_positions dets)).tracking_history k) := by
  intro k hk
  rw [List.map_append, List.mem_append] at hk
  have hn : (matchedHist t s (tagsOf s.last_positions dets)).next_id = s.next_id :=
    matchedHist_next_id t (tagsOf s.last_positions dets) s
  by_cases hkF : k ∈ (opsF s.next_id (tagsOf s.last_positions dets)).map Prod.fst
  · exact freshState_fresh t _ _ k (by rw [hn]; exact hkF)
  · have hkM : k ∈ (opsM (tagsOf s.last_positions dets)).map Prod.fst := by
      rcases hk with h | h
      · exact h
      · exact absurd h hkF
    rw [freshState_alookup_not_key t _ _ k (by rw [hn]; exact hkF)]
    exact matchedHist_fresh t _ _ k hkM

theorem mem_aset {κ α : Type} [DecidableEq κ] :
    ∀ (l : List (κ × α)) (k : κ) (v : α) (kv : κ × α),
      kv ∈ aset l k v → kv ∈ l ∨ kv.1 = k := by
  intro l
  induction l with
  | nil =>
    intro k v kv h
    simp only [aset, List.mem_singleton] at h
    subst h
    exact Or.inr rfl
  | cons p rest ih =>
    intro k v kv h
    unfold aset at h
    by_cases hpk : p.1 = k
    · rw [if_pos hpk] at h
      rcases List.mem_cons.mp h with h1 | h1
      · subst h1
        exact Or.inr rfl
      · exact Or.inl (List.mem_cons_of_mem _ h1)
    · rw [if_neg hpk] at h
      rcases List.mem_cons.mp h with h1 | h1
      · subst h1
        exact Or.inl (List.mem_cons_self _ _)
      · rcases ih k v kv h1 with h2 | h2
        · exact Or.inl (List.mem_cons_of_mem _ h2)
        · exact Or.inr h2

theorem mem_asets_keys {κ α : Type} [DecidableEq κ] :
    ∀ (ops l : List (κ × α)) (kv : κ × α),
      kv ∈ asets l ops → kv ∈ l ∨ kv.1 ∈ ops.map Prod.fst := by
  intro ops
  induction ops with
  | nil =>
    intro l kv h
    exact Or.inl h
  | cons op r ih =>
    intro l kv h
    rw [asets_cons] at h
    rcases ih _ kv h with h1 | h1
    · rcases mem_aset l op.1 op.2 kv h1 with h2 | h2
      · exact Or.inl h2
      · right
        rw [List.map_cons, ← h2]
        exact List.mem_cons_self _ _
    · right
      rw [List.map_cons]
      exact List.mem_cons_of_mem _ h1

theorem cleanup_keeps_fresh (S : TrackerState) (cp : List (String × Pos)) (t : ℚ)
    (h : ∀ kv ∈ cp, freshEntry t (alookup S.tracking_history kv.1)) :
    (cleanup_old_tracks { S with last_positions := cp } t 2).last_positions = cp := by
  unfold cleanup_old_tracks
  dsimp only
  rw [List.filter_eq_self.mpr]
  intro kv hkv
  have hf := h kv hkv
  unfold freshEntry at hf
  cases halo : alookup S.tracking_history kv.1 with
  | none => simp [halo]
  | some hh =>
    rw [halo] at hf
    simp only at hf
    simp [halo, hf]

theorem update_tracks_fst_pass2 (s : TrackerState) (dets : List Detection) (t : ℚ) :
    (update_tracks s dets t).1 = pass2Out s.next_id (tagsOf s.last_positions dets) := by
  rw [update_tracks_eq]

theorem update_tracks_last_positions (s : TrackerState) (dets : List Detection) (t : ℚ) :
    (update_tracks s dets t).2.last_positions =
      asets [] (opsM (tagsOf s.last_positions dets)
        ++ opsF s.next_id (tagsOf s.last_positions dets)) := by
  rw [update_tracks_eq]
  dsimp only
  apply cleanup_keeps_fresh
  intro kv hkv
  rcases mem_asets_keys _ [] kv hkv with h1 | h1
  · cases h1
  · exact final_state_fresh s dets t kv.1 h1

theorem ops_out_correspond (lp : List (String × Pos)) :
    ∀ (dets : List Detection) (n : Nat),
      (∀ kv ∈ opsM (tagsOf lp dets) ++ opsF n (tagsOf lp dets),
        ∃ d0, d0 ∈ pass2Out n (tagsOf lp dets) ∧ d0.id = kv.1 ∧ d0.center = some kv.2) ∧
      (∀ d0 ∈ pass2Out n (tagsOf lp dets), ∀ c, d0.center = some c →
        (d0.id, c) ∈ opsM (tagsOf lp dets) ++ opsF n (tagsOf lp dets)) := by
  intro dets
  induction dets with
  | nil =>
    intro n
    constructor
    · intro kv hkv
      simp [tagsOf, opsM, opsF] at hkv
    · intro d0 hd0
      simp [tagsOf, pass2Out] at hd0
  | cons d r ih =>
    intro n
    cases hc : d.center with
    | none =>
      have htag : tagOf lp d = MatchTag.skipped d := by simp [tagOf, hc]
      simp only [tagsOf, List.map_cons, htag, opsM, opsF, pass2Out]
      obtain ⟨ihf, ihb⟩ := ih n
      constructor
      · intro kv hkv
        obtain ⟨d0, hd0, hp⟩ := ihf kv hkv
        exact ⟨d0, List.mem_cons_of_mem _ hd0, hp⟩
      · intro d0 hd0 c hcc
        rcases List.mem_cons.mp hd0 with h1 | h1
        · subst h1
          rw [hc] at hcc
          cases hcc
        · exact ihb d0 h1 c hcc
    | some c0 =>
      have hunm : tagOf lp d = MatchTag.unmatched d c0 →
          (∀ kv ∈ opsM (tagsOf lp (d :: r)) ++ opsF n (tagsOf lp (d :: r)),
            ∃ d0, d0 ∈ pass2Out n (tagsOf lp (d :: r)) ∧ d0.id = kv.1 ∧ d0.center = some kv.2) ∧
          (∀ d0 ∈ pass2Out n (tagsOf lp (d :: r)), ∀ c, d0.center = some c →
            (d0.id, c) ∈ opsM (tagsOf lp (d :: r)) ++ opsF n (tagsOf lp (d :: r))) := by
        intro htag
        simp only [tagsOf, List.map_cons, htag, opsM, opsF, pass2Out]
        obtain ⟨ihf, ihb⟩ := ih (n + 1)
        constructor
        · intro kv hkv
          rw [List.mem_append, List.mem_cons] at hkv
          rcases hkv with h1 | h1 | h1
          · obtain ⟨d0, hd0, hp⟩ := ihf kv (List.mem_append.mpr (Or.inl h1))
            exact ⟨d0, List.mem_cons_of_mem _ hd0, hp⟩
          · subst h1
            exact ⟨{ d with id := objName n }, List.mem_cons_self _ _, rfl, hc⟩
          · obtain ⟨d0, hd0, hp⟩ := ihf kv (List.mem_append.mpr (Or.inr h1))
            exact ⟨d0, List.mem_cons_of_mem _ hd0, hp⟩
        · intro d0 hd0 c hcc
          rcases List.mem_cons.mp hd0 with h1 | h1
          · subst h1
            simp only at hcc
            rw [hc] at hcc
            cases hcc
            rw [List.mem_append, List.mem_cons]
            exact Or.inr (Or.inl rfl)
          · have := ihb d0 h1 c hcc
            rw [List.mem_append] at this
            rw [List.mem_append, List.mem_cons]
            rcases this with h2 | h2
            · exact Or.inl h2
            · exact Or.inr (Or.inr h2)
      cases hfb : findBest lp c0 with
      | none =>
        exact hunm (by simp [tagOf, hc, hfb])
      | some bd =>
        obtain ⟨bid, dd⟩ := bd
        by_cases hbid : bid = ""
        · exact hunm (by simp [tagOf, hc, hfb, hbid])
        · have htag : tagOf lp d = MatchTag.matched d bid c0 := by
            simp [tagOf, hc, hfb, hbid]
          simp only [tagsOf, List.map_cons, htag, opsM, opsF, pass2Out]
          obtain ⟨ihf, ihb⟩ := ih n
          constructor
          · intro kv hkv
            rw [List.cons_append, List.mem_cons] at hkv
            rcases hkv with h1 | h1
            · subst h1
              exact ⟨{ d with id := bid }, List.mem_cons_self _ _, rfl, hc⟩
            · obtain ⟨d0, hd0, hp⟩ := ihf kv h1
              exact ⟨d0, List.mem_cons_of_mem _ hd0, hp⟩
          · intro d0 hd0 c hcc
            rcases List.mem_cons.mp hd0 with h1 | h1
            · subst h1
              simp only at hcc
              rw [hc] at hcc
              cases hcc
              rw [List.cons_append, List.mem_cons]
              exact Or.inl rfl
            · have := ihb d0 h1 c hcc
              rw [List.cons_append, List.mem_cons]
              exact Or.inr this

theorem pass2Out_provenance (lp : List (String × Pos)) :
    ∀ (dets : List Detection) (n : Nat) (d0 : Detection),
      d0 ∈ pass2Out n (tagsOf lp dets) → d0.center.isSome →
      (alookup lp d0.id).isSome ∨ ∃ k, n ≤ k ∧ d0.id = objName k := by
  intro dets
  induction dets with
  | nil =>
    intro n d0 hd0 _
    simp [tagsOf, pass2Out] at hd0
  | cons d r ih =>
    intro n d0 hd0 hsome
    cases hc : d.center with
    | none =>
      have htag : tagOf lp d = MatchTag.skipped d := by simp [tagOf, hc]
      rw [tagsOf, List.map_cons, htag] at hd0
      rcases List.mem_cons.mp hd0 with h1 | h1
      · subst h1
        rw [hc] at hsome
        cases hsome
      · exact ih n d0 h1 hsome
    | some c0 =>
      cases hfb : findBest lp c0 with
      | none =>
        have htag : tagOf lp d = MatchTag.unmatched d c0 := by simp [tagOf, hc, hfb]
        rw [tagsOf, List.map_cons, htag] at hd0
        rcases List.mem_cons.mp hd0 with h1 | h1
        · subst h1
          exact Or.inr ⟨n, le_refl n, rfl⟩
        · rcases ih (n + 1) d0 h1 hsome with h2 | ⟨k, hk, he⟩
          · exact Or.inl h2
          · exact Or.inr ⟨k, by omega, he⟩
      | some bd =>
        obtain ⟨bid, dd⟩ := bd
        by_cases hbid : bid = ""
        · have htag : tagOf lp d = MatchTag.unmatched d c0 := by simp [tagOf, hc, hfb, hbid]
          rw [tagsOf, List.map_cons, htag] at hd0
          rcases List.mem_cons.mp hd0 with h1 | h1
          · subst h1
            exact Or.inr ⟨n, le_refl n, rfl⟩
          · rcases ih (n + 1) d0 h1 hsome with h2 | ⟨k, hk, he⟩
            · exact Or.inl h2
            · exact Or.inr ⟨k, by omega, he⟩
        · have htag : tagOf lp d = MatchTag.matched d bid c0 := by simp [tagOf, hc, hfb, hbid]
          rw [tagsOf, List.map_cons, htag] at hd0
          rcases List.mem_cons.mp hd0 with h1 | h1
          · subst h1
            obtain ⟨⟨p, hp, _⟩, _, _⟩ := findBest_some_spec lp c0 bid dd hfb
            exact Or.inl (alookup_mem_isSome hp)
          · exact ih n d0 h1 hsome

/-- Claim C9: after `update_tracks`, the `last_positions` map holds exactly
the ids assigned in that call to detections with a computable center, each
mapped to the center of a detection that received that id; and every
assigned id either comes from the entry-time `last_positions` (matching
draws from nothing else) or is a fresh sequential `obj_<k>` with
`k ≥ next_id` — so a track absent from `last_positions` can never be matched
again, and a re-detected object receives a fresh id. -/
theorem C9_last_positions_exact (s : TrackerState) (dets : List Detection) (t : ℚ) :
    (∀ id, (alookup (update_tracks s dets t).2.last_positions id).isSome ↔
      ∃ d0 ∈ (update_tracks s dets t).1, d0.center.isSome ∧ d0.id = id) ∧
    (∀ id v, alookup (update_tracks s dets t).2.last_positions id = some v →
      ∃ d0 ∈ (update_tracks s dets t).1, d0.id = id ∧ d0.center = some v) ∧
    (∀ d0 ∈ (update_tracks s dets t).1, d0.center.isSome →
      (alookup s.last_positions d0.id).isSome ∨
        ∃ k, s.next_id ≤ k ∧ d0.id = objName k) := by
  have hlp := update_tracks_last_positions s dets t
  have hout := update_tracks_fst_pass2 s dets t
  obtain ⟨hfwd, hbwd⟩ := ops_out_correspond s.last_positions dets s.next_id
  refine ⟨?_, ?_, ?_⟩
  · intro id
    rw [hlp, hout, alookup_asets_isSome]
    simp only [alookup_nil, Option.isSome_none, Bool.false_eq_true, false_or]
    constructor
    · intro hkey
      obtain ⟨kv, hkv, hkveq⟩ := List.mem_map.mp hkey
      obtain ⟨d0, hd0mem, hd0id, hd0c⟩ := hfwd kv hkv
      refine ⟨d0, hd0mem, ?_, ?_⟩
      · rw [hd0c]
        rfl
      · rw [hd0id, hkveq]
    · rintro ⟨d0, hd0mem, hd0some, hd0id⟩
      obtain ⟨c, hc⟩ := Option.isSome_iff_exists.mp hd0some
      have hmem := hbwd d0 hd0mem c hc
      subst hd0id
      exact List.mem_map.mpr ⟨(d0.id, c), hmem, rfl⟩
  · intro id v halo
    rw [hlp] at halo
    rcases alookup_asets_origin _ _ _ _ halo with h1 | h1
    · simp [alookup] at h1
    · obtain ⟨d0, hd0mem, hd0id, hd0c⟩ := hfwd (id, v) h1
      rw [hout]
      exact ⟨d0, hd0mem, hd0id, hd0c⟩
  · intro d0 hd0 hsome
    rw [hout] at hd0
    exact pass2Out_provenance s.last_positions dets s.next_id d0 hd0 hsome

theorem C9_last_positions_exact_witness :
    alookup (update_tracks (tracker_init 30)
        [⟨"", "car", 1, (0, 0, 2, 2), some (0, 0)⟩] 0).2.last_positions "obj_1"
      = some (0, 0) ∧
    ∃ d0 ∈ (update_tracks (tracker_init 30)
        [⟨"", "car", 1, (0, 0, 2, 2), some (0, 0)⟩] 0).1,
      d0.id = "obj_1" ∧ d0.center = some (0, 0) := by
  have hlook : alookup (update_tracks (tracker_init 30)
      [⟨"", "car", 1, (0, 0, 2, 2), some (0, 0)⟩] 0).2.last_positions "obj_1"
      = some (0, 0) := by
    rw [update_tracks_last_positions]
    rfl
  exact ⟨hlook,
    (C9_last_positions_exact (tracker_init 30)
      [⟨"", "car", 1, (0, 0, 2, 2), some (0, 0)⟩] 0).2.1 "obj_1" (0, 0) hlook⟩

/-! ## Claim C3: lifecycle of stopped-vehicle entries -/

theorem check_stopped_preserve (a : AnomalyState) (tr : TrackerState) (d : Detection)
    (t : ℚ) (id : String) (hne : id ≠ d.id)
    (h : (alookup a.stopped_vehicles id).isSome) :
    (alookup (check_stopped_vehicle a tr d t).2.stopped_vehicles id).isSome := by
  cases hstop : (get_movement_info tr d.id 1).stopped
  · simp only [check_stopped_vehicle, hstop, Bool.false_eq_true, if_false]
    rw [alookup_filter_ne _ _ _ hne]
    exact h
  · simp only [check_stopped_vehicle, hstop, if_true]
    cases halo : alookup a.stopped_vehicles d.id with
    | none =>
      dsimp only
      obtain ⟨v, hv⟩ := Option.isSome_iff_exists.mp h
      rw [alookup_append_some _ hv]
      rfl
    | some e =>
      dsimp only
      split
      · exact h
      · exact h

theorem anomaly_fold_preserve (tr : TrackerState) (t : ℚ) :
    ∀ (dets : List Detection) (acc : List Anomaly × AnomalyState) (id : String),
      (alookup acc.2.stopped_vehicles id).isSome →
      id ∉ dets.map Detection.id →
      (alookup (dets.foldl (anomaly_step tr t) acc).2.stopped_vehicles id).isSome := by
  intro dets
  induction dets with
  | nil =>
    intro acc id hsome _
    exact hsome
  | cons d r ih =>
    intro acc id hsome hnin
    rw [List.map_cons, List.mem_cons, not_or] at hnin
    rw [List.foldl_cons]
    apply ih _ id ?_ hnin.2
    unfold anomaly_step
    split
    · exact hsome
    · split
      · exact hsome
      · split
        · exact hsome
        · split
          · rcases hcsv : check_stopped_vehicle acc.2 tr d t with ⟨oan, a2⟩
            have hpres := check_stopped_preserve acc.2 tr d t id hnin.1 hsome
            rw [hcsv] at hpres
            cases oan
            · exact hpres
            · exact hpres
          · exact hsome

/-- Claim C3 counterexample: a car tracked at `(5, 5)` at `t = 0` acquires a
stopped-vehicle entry; at `t = 10` the tracker's `update_tracks` purges its
track (idle longer than `max_age = 2.0`), yet the detector's entry for
`obj_1` is still present afterwards — refuting "after a tracked vehicle's
track is purged for exceeding max_age, no stopped-vehicle entry for that id
remains in the detector's state". -/
theorem C3_stopped_entry_purge_counterexample :
    alookup ((update_tracks (update_history (tracker_init 30) "obj_1" (5, 5) 0)
        [] 10).2.tracking_history) "obj_1" = none ∧
    (detect_anomalies
        (detect_anomalies (anomaly_init 20)
          (update_history (tracker_init 30) "obj_1" (5, 5) 0)
          [⟨"obj_1", "car", 1, (0, 0, 10, 10), some (5, 5)⟩] 0).2
        (update_tracks (update_history (tracker_init 30) "obj_1" (5, 5) 0) [] 10).2
        [] 10).2.stopped_vehicles
      = [("obj_1", ⟨0, some (5, 5), "car"⟩)] := by
  constructor
  · rw [update_tracks_eq]
    simp only [tagsOf, List.map_nil, matchedHist, freshState, opsM, opsF, asets_nil,
      List.append_nil, cleanup_old_tracks]
    have hstale : isStale 10 2 (dequeAppend 30 [] ((5 : ℚ), (5 : ℚ), (0 : ℚ))) = true := by
      unfold dequeAppend isStale lastTs
      norm_num
    simp [update_history, tracker_init, aset, alookup, hstale]
  · rfl

/-- Claim C3 (amended): a stopped-vehicle entry is removed exactly when a
detection with that id is dispatched to the dwell logic and the tracker
reports it as moving (`stopped = False`); a purged (unknown) track is
reported as stopped, not moving, and `detect_anomalies` never removes an
entry whose id is not among the processed detections — so purging a track
does not clear its entry (it persists until a moving report or `reset()`). -/
theorem C3_stopped_entry_lifecycle (a : AnomalyState) (tr : TrackerState) (d : Detection)
    (t : ℚ) :
    ((get_movement_info tr d.id 1).stopped = false →
      (check_stopped_vehicle a tr d t).2.stopped_vehicles =
        a.stopped_vehicles.filter (fun p => decide (p.1 ≠ d.id))) ∧
    (∀ id, alookup tr.tracking_history id = none →
      (get_movement_info tr id 1).stopped = true) ∧
    (∀ (dets : List Detection) (id : String),
      (alookup a.stopped_vehicles id).isSome →
      id ∉ dets.map Detection.id →
      (alookup (detect_anomalies a tr dets t).2.stopped_vehicles id).isSome) := by
  refine ⟨?_, ?_, ?_⟩
  · intro hmove
    simp only [check_stopped_vehicle, hmove, Bool.false_eq_true, if_false]
  · intro id h
    exact movement_unknown_stopped tr id 1 h
  · intro dets id hsome hnin
    exact anomaly_fold_preserve tr t dets ([], a) id hsome hnin

theorem C3_stopped_entry_lifecycle_witness :
    (alookup (([("obj_1", ⟨0, some (5, 5), "car"⟩)] :
        List (String × StopEntry))) "obj_1").isSome ∧
    (alookup (detect_anomalies ⟨20, [("obj_1", ⟨0, some (5, 5), "car"⟩)]⟩
        (tracker_init 30) [] 10).2.stopped_vehicles "obj_1").isSome :=
  ⟨rfl,
   (C3_stopped_entry_lifecycle ⟨20, [("obj_1", ⟨0, some (5, 5), "car"⟩)]⟩
      (tracker_init 30) ⟨"", "car", 1, (0, 0, 2, 2), some (1, 1)⟩ 10).2.2
     [] "obj_1" rfl (by simp)⟩
